import Mathlib

/-!
The reactor of cityslicker, `src/net.c`

A shallow embedding of `net.c` (event multiplexing, connection lifecycle,
request/response framing) together with a small model of the operating-system
services it calls (descriptor table, epoll registrations, heap).

Conventions of the embedding

* C `int` descriptors and return codes are `Int`; `-1` is the failure value.
* Pointers are addresses (`Nat`), `0` is `NULL`; heap objects live in
  `World.heap`.
* Everything the environment decides (whether a system call succeeds, the
  bytes a socket delivers, the indeterminate contents of fresh `malloc`
  memory) is an explicit argument of the embedded function.
* A store outside the outbound buffer or an access through a dangling pointer
  is undefined behaviour in C; the embedding reports it as a `Fault`.
* Logging calls (`log_info`, `log_error`) do not touch the state and are left
  out; `log_fatal` is modelled from the specification (it ends the process).
-/

namespace CitySlicker

/-! ## Constants -/

/-- Value of `EPOLLIN` in `<sys/epoll.h>`. -/
def EPOLLIN : Nat := 0x001
/-- Value of `EPOLLOUT` in `<sys/epoll.h>`. -/
def EPOLLOUT : Nat := 0x004
/-- Value of `EPOLLERR` in `<sys/epoll.h>`. -/
def EPOLLERR : Nat := 0x008
/-- Value of `EPOLLHUP` in `<sys/epoll.h>`. -/
def EPOLLHUP : Nat := 0x010

/-- Constant `NET_SERVER_BACKLOG` of `net.c`. -/
def NET_SERVER_BACKLOG : Nat := 50
/-- Constant `NET_EPOLL_HINT` of `net.c`. -/
def NET_EPOLL_HINT : Nat := 1024

/-- The C test `events & flag` used as a condition. -/
def testFlag (events flag : Nat) : Bool := (events &&& flag) != 0

/-- What `net.c` takes from headers that are not part of the sources:
the size in bytes of the `buf` array of `net_client`, the constant
`NET_MAX_EVENTS`, and the spatial index behind
`world_get_cities_in_bounding_box(loaded_world, ...)`.  A coordinate is the
raw four bytes of a float; the query answers with the identifiers of the
cities found, in its own order. -/
structure Config where
  bufsize : Nat
  NET_MAX_EVENTS : Nat
  world_get_cities_in_bounding_box :
    List Nat → List Nat → List Nat → List Nat → List Int

/-- Number of `int` slots of the outbound buffer (`sizeof(int)` is 4). -/
def Config.slots (cfg : Config) : Nat := cfg.bufsize / 4

/-! ## Data model -/

/-- The enum `net_file_event_type_t`. -/
inductive net_file_event_type_t where
  | net_file_event_type_server
  | net_file_event_type_client
  deriving DecidableEq, Repr

open net_file_event_type_t

/-- The struct `net_file_event`. -/
structure net_file_event where
  ptr : Nat
  type : net_file_event_type_t
  mask : Nat
  deriving DecidableEq, Repr

/-- The struct `net_client`.  `buf` is the outbound buffer seen through
`(int *) &c->buf`, one entry per `int` slot; `buflen` counts bytes. -/
structure net_client where
  fd : Int
  ip : Nat
  port : Nat
  buf : List Int
  buflen : Nat
  deriving DecidableEq, Repr

/-- The struct `net_server`. -/
structure net_server where
  fd : Int
  epfd : Int
  events : Nat
  max_events : Nat
  deriving DecidableEq, Repr

/-- A live heap object. `batch` is the `events` array of a server. -/
inductive Obj where
  | client (c : net_client)
  | fevent (fe : net_file_event)
  | server (s : net_server)
  | batch (n : Nat)
  deriving DecidableEq, Repr

/-- One registration of an epoll instance: the descriptor, the interest mask
and the `data.ptr` payload. -/
structure Reg where
  epfd : Int
  fd : Int
  events : Nat
  ptr : Nat
  deriving DecidableEq, Repr

/-- The descriptor table of the process and the epoll registrations.
`other` are descriptors the server did not create (standard streams, files),
`socks` the sockets made by `socket`/`accept`, `epolls` the epoll
instances. -/
structure Kernel where
  other : List Int
  socks : List Int
  epolls : List Int
  regs : List Reg
  deriving DecidableEq, Repr

/-- The calls the reactor makes, as recorded in the trace. -/
inductive Call where
  | signal_ignore_sigpipe
  | malloc (p : Nat)
  | free (p : Nat)
  | socket (ret : Int)
  | setsockopt (fd : Int)
  | bind (fd : Int) (port : Nat) (ret : Int)
  | listen (fd : Int) (backlog : Nat) (ret : Int)
  | epoll_create (ret : Int)
  | epoll_ctl_add (epfd fd : Int) (events ptr : Nat) (ret : Int)
  | epoll_ctl_del (epfd fd : Int) (ret : Int)
  | accept (fd : Int) (ret : Int)
  | fcntl (fd : Int) (ret : Int)
  | close (fd : Int)
  | read (fd : Int) (count : Nat) (ret : Int)
  | write (fd : Int) (count : Nat) (ret : Int)
  | query (minx miny maxx maxy : List Nat)
  | epoll_wait (epfd : Int) (ret : Int)
  deriving DecidableEq, Repr

/-- Executions the C standard gives no meaning to, and process termination. -/
inductive Fault where
  | buffer_overflow
  | bad_pointer
  | bad_free
  | fatal
  deriving DecidableEq, Repr

/-- The state the reactor runs in. `trace` lists the calls made so far,
oldest first. -/
structure World where
  k : Kernel
  heap : List (Nat × Obj)
  trace : List Call
  deriving DecidableEq, Repr

/-! ## Operating-system model -/

/-- All open descriptors. -/
def Kernel.openFds (k : Kernel) : List Int := k.other ++ k.socks ++ k.epolls

/-- The lowest-numbered descriptor that is not open: the one `socket`,
`accept` and `epoll_create` hand out. -/
def lowestFd (used : List Int) : Int :=
  (((List.range (used.length + 1)).map Int.ofNat).find? (fun n => decide (n ∉ used))).getD
    (Int.ofNat used.length)

/-- Address handed out by a successful `malloc`: the lowest non-null address
that is not live. -/
def freshAddr (heap : List (Nat × Obj)) : Nat :=
  (((List.range (heap.length + 1)).map (· + 1)).find?
    (fun n => decide (n ∉ heap.map Prod.fst))).getD (heap.length + 1)

/-- Record a call. -/
def World.log (w : World) (c : Call) : World := { w with trace := w.trace ++ [c] }

/-- Effect of `close(fd)` on the kernel: the descriptor leaves the table and
every registration of it, or inside it, disappears. -/
def Kernel.close (k : Kernel) (fd : Int) : Kernel :=
  { other := k.other.filter (· ≠ fd)
    socks := k.socks.filter (· ≠ fd)
    epolls := k.epolls.filter (· ≠ fd)
    regs := k.regs.filter (fun r => r.fd ≠ fd ∧ r.epfd ≠ fd) }

/-- The call `close(fd)`. -/
def sys_close (w : World) (fd : Int) : World :=
  { w with k := w.k.close fd, trace := w.trace ++ [Call.close fd] }

/-- The call `socket(AF_INET, SOCK_STREAM, 0)`; `ok` says whether the kernel
grants it. -/
def sys_socket (w : World) (ok : Bool) : Int × World :=
  if ok then
    let fd := lowestFd w.k.openFds
    (fd, { w with k := { w.k with socks := w.k.socks ++ [fd] },
                  trace := w.trace ++ [Call.socket fd] })
  else (-1, w.log (Call.socket (-1)))

/-- The call `epoll_create(NET_EPOLL_HINT)`. -/
def sys_epoll_create (w : World) (ok : Bool) : Int × World :=
  if ok then
    let fd := lowestFd w.k.openFds
    (fd, { w with k := { w.k with epolls := w.k.epolls ++ [fd] },
                  trace := w.trace ++ [Call.epoll_create fd] })
  else (-1, w.log (Call.epoll_create (-1)))

/-- The call `accept(lfd, ...)`: it succeeds only on an open socket. -/
def sys_accept (w : World) (lfd : Int) (ok : Bool) : Int × World :=
  if ok && decide (lfd ∈ w.k.socks) then
    let fd := lowestFd w.k.openFds
    (fd, { w with k := { w.k with socks := w.k.socks ++ [fd] },
                  trace := w.trace ++ [Call.accept lfd fd] })
  else (-1, w.log (Call.accept lfd (-1)))

/-- The call `fcntl(fd, F_SETFL, O_NONBLOCK)`: `0` on success. -/
def sys_fcntl (w : World) (fd : Int) (ok : Bool) : Int × World :=
  let ret : Int := if ok && decide (fd ∈ w.k.openFds) then 0 else -1
  (ret, w.log (Call.fcntl fd ret))

/-- The call `bind(fd, ...)`: `0` on success. -/
def sys_bind (w : World) (fd : Int) (port : Nat) (ok : Bool) : Int × World :=
  let ret : Int := if ok && decide (fd ∈ w.k.socks) then 0 else -1
  (ret, w.log (Call.bind fd port ret))

/-- The call `listen(fd, backlog)`: `0` on success. -/
def sys_listen (w : World) (fd : Int) (backlog : Nat) (ok : Bool) : Int × World :=
  let ret : Int := if ok && decide (fd ∈ w.k.socks) then 0 else -1
  (ret, w.log (Call.listen fd backlog ret))

/-- The call `epoll_ctl(epfd, EPOLL_CTL_ADD, fd, &ee)`: it needs an open epoll
instance, an open descriptor other than the instance, and no registration of
that descriptor yet. -/
def sys_epoll_ctl_add (w : World) (epfd fd : Int) (events ptr : Nat) (ok : Bool) :
    Int × World :=
  if ok && decide (epfd ∈ w.k.epolls) && decide (fd ∈ w.k.openFds) && decide (fd ≠ epfd)
      && decide (∀ r ∈ w.k.regs, ¬ (r.epfd = epfd ∧ r.fd = fd)) then
    (0, { w with k := { w.k with regs := w.k.regs ++ [⟨epfd, fd, events, ptr⟩] },
                 trace := w.trace ++ [Call.epoll_ctl_add epfd fd events ptr 0] })
  else (-1, w.log (Call.epoll_ctl_add epfd fd events ptr (-1)))

/-- The call `epoll_ctl(epfd, EPOLL_CTL_DEL, fd, NULL)`; its result is
ignored by `net.c`. -/
def sys_epoll_ctl_del (w : World) (epfd fd : Int) : World :=
  if decide (∃ r ∈ w.k.regs, r.epfd = epfd ∧ r.fd = fd) then
    { w with k := { w.k with regs := w.k.regs.filter (fun r => ¬ (r.epfd = epfd ∧ r.fd = fd)) },
             trace := w.trace ++ [Call.epoll_ctl_del epfd fd 0] }
  else w.log (Call.epoll_ctl_del epfd fd (-1))

/-- What a connection's socket holds when it is read. -/
inductive Inbound where
  | data (bytes : List Nat)
  | eof
  | err
  deriving DecidableEq, Repr

/-- The call `read(fd, data, count)` on a non-blocking socket: at most `count`
of the pending bytes, `0` at end of stream, `-1` on error or when nothing is
pending. -/
def sys_read (w : World) (fd : Int) (count : Nat) (inb : Inbound) :
    Int × List Nat × World :=
  match inb with
  | Inbound.data bytes =>
    if fd ∈ w.k.socks ∧ bytes ≠ [] then
      let got := bytes.take count
      (Int.ofNat got.length, got, w.log (Call.read fd count (Int.ofNat got.length)))
    else (-1, [], w.log (Call.read fd count (-1)))
  | Inbound.eof =>
    if fd ∈ w.k.socks then (0, [], w.log (Call.read fd count 0))
    else (-1, [], w.log (Call.read fd count (-1)))
  | Inbound.err => (-1, [], w.log (Call.read fd count (-1)))

/-- The call `write(fd, buf, count)`: `wr` is the number of bytes the kernel
is ready to take (`none` for an error); the result is the number of bytes
transmitted, at most `count`, or `-1`. -/
def sys_write (w : World) (fd : Int) (count : Nat) (wr : Option Nat) : Int × World :=
  let ret : Int :=
    match wr with
    | some n => if fd ∈ w.k.socks then Int.ofNat (min n count) else -1
    | none => -1
  (ret, w.log (Call.write fd count ret))

/-- What `epoll_wait` reports: a batch of ready events, an interruption by a
signal (`errno` is `EINTR`), or another failure. -/
inductive WaitResult (α : Type) where
  | ready (batch : List α)
  | interrupted
  | failed

/-! ## Heap model -/

/-- The object at an address. -/
def World.lookup (w : World) (p : Nat) : Option Obj :=
  (w.heap.find? (fun e => e.1 == p)).map Prod.snd

/-- The call `malloc`: `ok` says whether memory is granted, `init` is the
indeterminate content of the fresh block. -/
def sys_malloc (w : World) (ok : Bool) (init : Obj) : Nat × World :=
  if ok then
    let p := freshAddr w.heap
    (p, { w with heap := w.heap ++ [(p, init)], trace := w.trace ++ [Call.malloc p] })
  else (0, w.log (Call.malloc 0))

/-- The call `free(p)` on a non-null pointer: the block must be live. -/
def sys_free (w : World) (p : Nat) : Except Fault World :=
  if (w.heap.map Prod.fst).contains p then
    .ok { w with heap := w.heap.filter (fun e => e.1 != p), trace := w.trace ++ [Call.free p] }
  else .error Fault.bad_free

/-- A store through a pointer. -/
def World.store (w : World) (p : Nat) (o : Obj) : World :=
  { w with heap := w.heap.map (fun e => if e.1 == p then (p, o) else e) }

/-! ## The functions of `net.c` -/

/-- C function `net_file_event_destroy`. -/
def net_file_event_destroy (fe : Nat) (w : World) : Except Fault World :=
  sys_free w fe

/-- C function `net_file_event_create`; `ok` is the outcome of its `malloc`.
Every field of the fresh block is assigned. -/
def net_file_event_create (ptr : Nat) (type : net_file_event_type_t) (ok : Bool)
    (w : World) : Nat × World :=
  let r := sys_malloc w ok (Obj.fevent { ptr := 0, type := type, mask := 0 })
  if r.1 = 0 then (0, r.2)
  else (r.1, r.2.store r.1 (Obj.fevent { ptr := ptr, type := type, mask := 0 }))

/-- The content of the `buf` array of a fresh `net_client` block: `slots`
values the allocator left there. -/
def junkBuf (slots : Nat) (junk : List Int) : List Int :=
  (List.range slots).map (fun i => junk.getD i 0)

/-- C function `net_client_create`; `ok` is the outcome of its `malloc`,
`junk_buf` and `junk_buflen` are what the fresh block holds in the fields the
function does not assign (`buf` and `buflen`). `ip` and `port` stand for
`inet_ntoa(addr.sin_addr)` and `ntohs(addr.sin_port)`. -/
def net_client_create (cfg : Config) (fd : Int) (ip port : Nat) (ok : Bool)
    (junk_buf : List Int) (junk_buflen : Nat) (w : World) : Nat × World :=
  let blank : net_client :=
    { fd := 0, ip := 0, port := 0, buf := junkBuf cfg.slots junk_buf, buflen := junk_buflen }
  let r := sys_malloc w ok (Obj.client blank)
  if r.1 = 0 then (0, r.2)
  else (r.1, r.2.store r.1 (Obj.client { blank with fd := fd, ip := ip, port := port }))

/-- C function `net_client_close`. -/
def net_client_close (s : net_server) (c : Nat) (w : World) : Except Fault World :=
  match w.lookup c with
  | some (Obj.client cl) =>
    let w1 := sys_epoll_ctl_del w s.epfd cl.fd
    let w2 := sys_close w1 cl.fd
    sys_free w2 c
  | _ => .error Fault.bad_pointer

/-- The answers of the environment during one `net_server_accept`. -/
structure AcceptEnv where
  accept_ok : Bool
  ip : Nat
  port : Nat
  fcntl_ok : Bool
  client_ok : Bool
  junk_buf : List Int
  junk_buflen : Nat
  fe_ok : Bool
  ctl_ok : Bool
  deriving DecidableEq, Repr

/-- The code at label `err:` of `net_server_accept`, entered with the current
values of the locals `fd`, `c` and `fe`. -/
def net_server_accept_err (s : net_server) (fd : Int) (c fe : Nat) (w : World) :
    Except Fault (Nat × World) :=
  let r : Except Fault World :=
    if c ≠ 0 then net_client_close s c w
    else if fd ≠ 0 then .ok (sys_close w fd)
    else .ok w
  match r with
  | .error f => .error f
  | .ok w1 =>
    if fe ≠ 0 then
      match net_file_event_destroy fe w1 with
      | .error f => .error f
      | .ok w2 => .ok (0, w2)
    else .ok (0, w1)

/-- C function `net_server_accept`; the result is the new connection or
`NULL` (`0`). -/
def net_server_accept (cfg : Config) (sp : Nat) (env : AcceptEnv) (w : World) :
    Except Fault (Nat × World) :=
  match w.lookup sp with
  | some (Obj.server s) =>
    let a := sys_accept w s.fd env.accept_ok
    if a.1 = -1 then net_server_accept_err s a.1 0 0 a.2 else
    let f := sys_fcntl a.2 a.1 env.fcntl_ok
    if f.1 ≠ 0 then net_server_accept_err s a.1 0 0 f.2 else
    let c := net_client_create cfg a.1 env.ip env.port env.client_ok env.junk_buf
      env.junk_buflen f.2
    if c.1 = 0 then net_server_accept_err s a.1 0 0 c.2 else
    let fe := net_file_event_create c.1 net_file_event_type_client env.fe_ok c.2
    if fe.1 = 0 then net_server_accept_err s a.1 c.1 0 fe.2 else
    let r := sys_epoll_ctl_add fe.2 s.epfd a.1 (EPOLLIN ||| EPOLLOUT) fe.1 env.ctl_ok
    if r.1 ≠ 0 then net_server_accept_err s a.1 c.1 fe.1 r.2 else
    .ok (c.1, r.2)
  | _ => .error Fault.bad_pointer

/-- C function `net_client_write`; `wr` is the answer of the kernel to the
`write` call, should one be made. -/
def net_client_write (c : Nat) (wr : Option Nat) (w : World) : Except Fault (Int × World) :=
  match w.lookup c with
  | some (Obj.client cl) =>
    if cl.buflen ≠ 0 then
      let n := sys_write w cl.fd cl.buflen wr
      if n.1 = -1 then .ok (-1, n.2)
      else .ok (n.1, n.2.store c (Obj.client { cl with buflen := 0 }))
    else .ok (0, w)
  | _ => .error Fault.bad_pointer

/-- The loop `for(i = 0; i < res->length; i++) *(ids++) = res->cities[i]->id;`
of `net_client_read`, started at slot `i`: a store beyond the last slot of
the buffer has no defined behaviour. -/
def store_ids (buf : List Int) (i : Nat) : List Int → Option (List Int)
  | [] => some buf
  | id :: rest => if i < buf.length then store_ids (buf.set i id) (i + 1) rest else none

/-- The float `coords[i]` of `net_client_read`, as its four raw bytes. -/
def coord (data : List Nat) (i : Nat) : List Nat := (data.drop (4 * i)).take 4

/-- C function `net_client_read`; `inb` is what the socket holds. -/
def net_client_read (cfg : Config) (c : Nat) (inb : Inbound) (w : World) :
    Except Fault (Int × World) :=
  match w.lookup c with
  | some (Obj.client cl) =>
    let datalen : Nat := 16
    let rd := sys_read w cl.fd datalen inb
    if rd.1 = 0 then .ok (0, rd.2.2)
    else if rd.1 ≠ Int.ofNat datalen then .ok (-1, rd.2.2)
    else
      let data := rd.2.1
      let res := cfg.world_get_cities_in_bounding_box
        (coord data 0) (coord data 1) (coord data 2) (coord data 3)
      let w1 := rd.2.2.log (Call.query (coord data 0) (coord data 1) (coord data 2) (coord data 3))
      match store_ids cl.buf 0 res with
      | none => .error Fault.buffer_overflow
      | some buf1 =>
        .ok (rd.1, w1.store c (Obj.client { cl with buf := buf1, buflen := 4 * res.length }))
  | _ => .error Fault.bad_pointer

/-- The answers of the environment during one `net_server_start`; the `junk`
fields are what the fresh `net_server` block holds before any assignment. -/
structure StartEnv where
  server_ok : Bool
  junk_fd : Int
  junk_epfd : Int
  events_ok : Bool
  socket_ok : Bool
  bind_ok : Bool
  listen_ok : Bool
  epoll_ok : Bool
  fe_ok : Bool
  ctl_ok : Bool
  deriving DecidableEq, Repr

/-- C function `net_server_create`. -/
def net_server_create (cfg : Config) (env : StartEnv) (w : World) :
    Except Fault (Nat × World) :=
  let blank : net_server :=
    { fd := env.junk_fd, epfd := env.junk_epfd, events := 0, max_events := 0 }
  let s := sys_malloc w env.server_ok (Obj.server blank)
  if s.1 = 0 then .ok (0, s.2) else
  let ev := sys_malloc s.2 env.events_ok (Obj.batch cfg.NET_MAX_EVENTS)
  if ev.1 = 0 then
    match sys_free ev.2 s.1 with
    | .error f => .error f
    | .ok w1 => .ok (0, w1)
  else
    .ok (s.1, ev.2.store s.1
      (Obj.server { blank with events := ev.1, max_events := cfg.NET_MAX_EVENTS }))

/-- C function `net_server_destroy`. -/
def net_server_destroy (sp : Nat) (w : World) : Except Fault World :=
  if sp = 0 then .ok w else
  match w.lookup sp with
  | some (Obj.server s) =>
    match sys_free w s.events with
    | .error f => .error f
    | .ok w1 =>
      let w2 := if s.fd ≠ 0 then sys_close w1 s.fd else w1
      let w3 := if s.epfd ≠ 0 then sys_close w2 s.epfd else w2
      sys_free w3 sp
  | _ => .error Fault.bad_pointer

/-- The code at label `err:` of `net_server_start`. -/
def net_server_start_err (s fe : Nat) (w : World) : Except Fault (Nat × World) :=
  let r : Except Fault World := if s ≠ 0 then net_server_destroy s w else .ok w
  match r with
  | .error f => .error f
  | .ok w1 =>
    if fe ≠ 0 then
      match net_file_event_destroy fe w1 with
      | .error f => .error f
      | .ok w2 => .ok (0, w2)
    else .ok (0, w1)

/-- The assignment `s->fd = fd`. -/
def set_server_fd (sp : Nat) (fd : Int) (w : World) : World :=
  match w.lookup sp with
  | some (Obj.server s) => w.store sp (Obj.server { s with fd := fd })
  | _ => w

/-- The assignment `s->epfd = epfd`. -/
def set_server_epfd (sp : Nat) (epfd : Int) (w : World) : World :=
  match w.lookup sp with
  | some (Obj.server s) => w.store sp (Obj.server { s with epfd := epfd })
  | _ => w

/-- C function `net_server_start`; the result is the server or `NULL`
(`0`). -/
def net_server_start (cfg : Config) (port : Nat) (env : StartEnv) (w : World) :
    Except Fault (Nat × World) :=
  let w0 := w.log Call.signal_ignore_sigpipe
  match net_server_create cfg env w0 with
  | .error f => .error f
  | .ok (s, w1) =>
    if s = 0 then net_server_start_err s 0 w1 else
    let so := sys_socket w1 env.socket_ok
    let w2 := set_server_fd s so.1 so.2
    if so.1 = -1 then net_server_start_err s 0 w2 else
    let w3 := w2.log (Call.setsockopt so.1)
    let b := sys_bind w3 so.1 port env.bind_ok
    if b.1 ≠ 0 then net_server_start_err s 0 b.2 else
    let l := sys_listen b.2 so.1 NET_SERVER_BACKLOG env.listen_ok
    if l.1 ≠ 0 then net_server_start_err s 0 l.2 else
    let ep := sys_epoll_create l.2 env.epoll_ok
    if ep.1 = -1 then net_server_start_err s 0 ep.2 else
    let w4 := set_server_epfd s ep.1 ep.2
    let fe := net_file_event_create s net_file_event_type_server env.fe_ok w4
    if fe.1 = 0 then net_server_start_err s 0 fe.2 else
    let r := sys_epoll_ctl_add fe.2 ep.1 so.1 EPOLLIN fe.1 env.ctl_ok
    if r.1 = -1 then net_server_start_err s fe.1 r.2 else
    .ok (s, r.2)

/-- One entry of `s->events` after `epoll_wait` (`ptr` is `data.ptr`,
`events` the observed mask), with the answers of the environment to the calls
made while the entry is serviced. -/
structure Ready where
  ptr : Nat
  events : Nat
  inbound : Inbound
  wr : Option Nat
  acc : AcceptEnv
  deriving DecidableEq, Repr

/-- The two calls `net_client_close(s, fe->ptr); net_file_event_destroy(fe);`
that `net_poll` makes on each of its closing paths. -/
def net_poll_close (s : net_server) (fe : Nat) (c : Nat) (w : World) : Except Fault World :=
  match net_client_close s c w with
  | .error f => .error f
  | .ok w1 => net_file_event_destroy fe w1

/-- Body of `net_poll` for a connection, third test: hangup or error flag. -/
def net_poll_hup (s : net_server) (fe : Nat) (c : Nat) (e : Ready) (w : World) :
    Except Fault World :=
  if testFlag e.events EPOLLHUP || testFlag e.events EPOLLERR then net_poll_close s fe c w
  else .ok w

/-- Body of `net_poll` for a connection, second test (`EPOLLOUT`) and what
follows it. -/
def net_poll_out (s : net_server) (fe : Nat) (c : Nat) (e : Ready) (w : World) :
    Except Fault World :=
  if testFlag e.events EPOLLOUT then
    match net_client_write c e.wr w with
    | .error f => .error f
    | .ok (n, w1) => if n = -1 then net_poll_close s fe c w1 else net_poll_hup s fe c e w1
  else net_poll_hup s fe c e w

/-- Body of `net_poll` for a connection, first test (`EPOLLIN`) and what
follows it. -/
def net_poll_in (cfg : Config) (s : net_server) (fe : Nat) (c : Nat) (e : Ready) (w : World) :
    Except Fault World :=
  if testFlag e.events EPOLLIN then
    match net_client_read cfg c e.inbound w with
    | .error f => .error f
    | .ok (num_read, w1) =>
      if num_read ≤ 0 then net_poll_close s fe c w1 else net_poll_out s fe c e w1
  else net_poll_out s fe c e w

/-- Body of the loop of `net_poll` for one ready entry. -/
def net_poll_event (cfg : Config) (s : net_server) (e : Ready) (w : World) :
    Except Fault World :=
  match w.lookup e.ptr with
  | some (Obj.fevent fe) =>
    if fe.type = net_file_event_type_client then net_poll_in cfg s e.ptr fe.ptr e w
    else if fe.type = net_file_event_type_server ∧ testFlag e.events EPOLLIN then
      match net_server_accept cfg fe.ptr e.acc w with
      | .error f => .error f
      | .ok (_, w1) => .ok w1
    else .ok w
  | _ => .error Fault.bad_pointer

/-- The loop of `net_poll` over the ready entries. -/
def net_poll_loop (cfg : Config) (s : net_server) : List Ready → World → Except Fault World
  | [], w => .ok w
  | e :: rest, w =>
    match net_poll_event cfg s e w with
    | .error f => .error f
    | .ok w1 => net_poll_loop cfg s rest w1

/-- The call `epoll_wait(epfd, events, max_events, -1)`: `wait` is what the
kernel has to report; at most `max_events` entries are delivered, and the
call fails on anything that is not an open epoll instance. -/
def sys_epoll_wait (w : World) (epfd : Int) (max_events : Nat) (wait : WaitResult Ready) :
    WaitResult Ready × World :=
  if epfd ∈ w.k.epolls then
    match wait with
    | .ready batch =>
      (.ready (batch.take max_events),
        w.log (Call.epoll_wait epfd (Int.ofNat (batch.take max_events).length)))
    | .interrupted => (.interrupted, w.log (Call.epoll_wait epfd (-1)))
    | .failed => (.failed, w.log (Call.epoll_wait epfd (-1)))
  else (.failed, w.log (Call.epoll_wait epfd (-1)))

/-- Modelled from the spec: `log_fatal` (declared in `util.h`, which is not
part of the sources) is "paired with process termination": the call does not
return. -/
def log_fatal {α : Type} : Except Fault α := .error Fault.fatal

/-- C function `net_poll`. -/
def net_poll (cfg : Config) (sp : Nat) (wait : WaitResult Ready) (w : World) :
    Except Fault (Int × World) :=
  match w.lookup sp with
  | some (Obj.server s) =>
    match sys_epoll_wait w s.epfd s.max_events wait with
    | (.failed, _) => log_fatal
    | (.interrupted, w1) => .ok (-1, w1)
    | (.ready batch, w1) =>
      match net_poll_loop cfg s batch w1 with
      | .error f => .error f
      | .ok w2 => .ok (Int.ofNat batch.length, w2)
  | _ => .error Fault.bad_pointer

/-! ## Auxiliary definitions for the statements -/

/-- Lookup in a raw heap. -/
def hfind (h : List (Nat × Obj)) (p : Nat) : Option Obj :=
  (h.find? (fun e => e.1 == p)).map Prod.snd

/-- Calls of the read and write paths: `read`, the spatial query, `write`. -/
def Call.onDataPath : Call → Bool
  | Call.read _ _ _ => true
  | Call.write _ _ _ => true
  | Call.query _ _ _ _ => true
  | _ => false

/-- The calls of the read path for the ready entry `e` of the connection
`cl` in state `w`: none when the readable bit is clear; otherwise the `read`
of 16 bytes, followed by the spatial query on the four coordinates when the
read delivered a full frame. -/
def readPathCalls (w : World) (cl : net_client) (e : Ready) : List Call :=
  if testFlag e.events EPOLLIN = true then
    if (sys_read w cl.fd 16 e.inbound).1 = 16 then
      [Call.read cl.fd 16 16,
       Call.query (coord (sys_read w cl.fd 16 e.inbound).2.1 0)
         (coord (sys_read w cl.fd 16 e.inbound).2.1 1)
         (coord (sys_read w cl.fd 16 e.inbound).2.1 2)
         (coord (sys_read w cl.fd 16 e.inbound).2.1 3)]
    else [Call.read cl.fd 16 (sys_read w cl.fd 16 e.inbound).1]
  else []

/-- The read path closed the connection: the readable bit is set and the
read did not deliver a full frame. -/
def readPathCloses (w : World) (cl : net_client) (e : Ready) : Bool :=
  testFlag e.events EPOLLIN && decide ((sys_read w cl.fd 16 e.inbound).1 ≠ 16)

/-- The pending length of the connection when the write path is reached:
four bytes per identifier found when the read path staged a response, the
former pending length otherwise. -/
def pendingAtWrite (cfg : Config) (w : World) (cl : net_client) (e : Ready) : Nat :=
  if testFlag e.events EPOLLIN = true ∧ (sys_read w cl.fd 16 e.inbound).1 = 16 then
    4 * (cfg.world_get_cities_in_bounding_box
      (coord (sys_read w cl.fd 16 e.inbound).2.1 0)
      (coord (sys_read w cl.fd 16 e.inbound).2.1 1)
      (coord (sys_read w cl.fd 16 e.inbound).2.1 2)
      (coord (sys_read w cl.fd 16 e.inbound).2.1 3)).length
  else cl.buflen

/-- The calls of the write path for the ready entry `e`, which comes after
the read path: one `write` of all the pending bytes when the read path did
not close the connection, the writable bit is set and bytes are pending;
none otherwise. -/
def writePathCalls (cfg : Config) (w : World) (cl : net_client) (e : Ready) : List Call :=
  if readPathCloses w cl e = false ∧ testFlag e.events EPOLLOUT = true ∧
      pendingAtWrite cfg w cl e ≠ 0
  then [Call.write cl.fd (pendingAtWrite cfg w cl e)
    (sys_write w cl.fd (pendingAtWrite cfg w cl e) e.wr).1]
  else []

/-- The connection `c` with socket `fd`, bound by the `net_file_event` `fe`,
has been closed, the calls before the close being `tr`: the trace is `tr`
followed by exactly one deregistration, one `close` of the socket and one
`free` of each of the two objects; the socket is no longer open nor
registered, and both objects are gone from the heap. -/
def ClosedAfter (s : net_server) (fe c : Nat) (fd : Int) (tr : List Call) (w2 : World) : Prop :=
  (∃ d, w2.trace = tr ++
      [Call.epoll_ctl_del s.epfd fd d, Call.close fd, Call.free c, Call.free fe]) ∧
  fd ∉ w2.k.openFds ∧ (∀ r ∈ w2.k.regs, r.fd ≠ fd) ∧
  w2.lookup c = none ∧ w2.lookup fe = none

/-- A small configuration: a buffer of 8 bytes (two slots), batches of four
events, and an index whose every query finds the city with identifier 5. -/
def demoCfg : Config :=
  { bufsize := 8, NET_MAX_EVENTS := 4, world_get_cities_in_bounding_box := fun _ _ _ _ => [5] }

/-- The same configuration with an index whose every query finds three
cities. -/
def demoCfg3 : Config :=
  { bufsize := 8, NET_MAX_EVENTS := 4,
    world_get_cities_in_bounding_box := fun _ _ _ _ => [5, 9, 12] }

/-- A server value: listening socket 3, epoll instance 4. -/
def demoSrv : net_server := { fd := 3, epfd := 4, events := 2, max_events := 4 }

/-- A started server (object 1) with one connection: socket 5, `net_client`
at address 4 with an empty two-slot buffer, `net_file_event` at address 5. -/
def demoConn : World :=
  { k := { other := [0, 1, 2], socks := [3, 5], epolls := [4],
           regs := [⟨4, 3, 1, 3⟩, ⟨4, 5, 5, 5⟩] }
    heap := [(1, Obj.server demoSrv), (2, Obj.batch 4),
             (3, Obj.fevent ⟨1, net_file_event_type_server, 0⟩),
             (4, Obj.client ⟨5, 1, 2, [0, 0], 0⟩),
             (5, Obj.fevent ⟨4, net_file_event_type_client, 0⟩)]
    trace := [] }

/-- A started server without connections, in a process whose standard
streams 0, 1, 2 are open. -/
def demoIdle : World :=
  { k := { other := [0, 1, 2], socks := [3], epolls := [4], regs := [⟨4, 3, 1, 3⟩] }
    heap := [(1, Obj.server demoSrv), (2, Obj.batch 4),
             (3, Obj.fevent ⟨1, net_file_event_type_server, 0⟩)]
    trace := [] }

/-- The same server in a process whose descriptor 0 is closed. -/
def demoIdleNoStdin : World :=
  { demoIdle with k := { demoIdle.k with other := [1, 2] } }

/-- A process before startup: standard streams open, empty heap. -/
def demoFresh : World :=
  { k := { other := [0, 1, 2], socks := [], epolls := [], regs := [] }, heap := [], trace := [] }

/-- An environment in which every step of `net_server_accept` succeeds and
the fresh `net_client` block is zero-filled. -/
def demoAcc : AcceptEnv :=
  { accept_ok := true, ip := 1, port := 2, fcntl_ok := true, client_ok := true,
    junk_buf := [], junk_buflen := 0, fe_ok := true, ctl_ok := true }

/-- An environment in which every step of `net_server_start` succeeds and the
fresh `net_server` block is zero-filled. -/
def demoEnv : StartEnv :=
  { server_ok := true, junk_fd := 0, junk_epfd := 0, events_ok := true, socket_ok := true,
    bind_ok := true, listen_ok := true, epoll_ok := true, fe_ok := true, ctl_ok := true }

/-- A ready entry for the `net_file_event` at `ptr`. -/
def demoReady (ptr events : Nat) (inb : Inbound) (wr : Option Nat) : Ready :=
  { ptr := ptr, events := events, inbound := inb, wr := wr, acc := demoAcc }

/-- The return code of `epoll_ctl(..., EPOLL_CTL_DEL, ...)`. -/
def delCode (w : World) (epfd fd : Int) : Int :=
  if decide (∃ r ∈ w.k.regs, r.epfd = epfd ∧ r.fd = fd) then 0 else -1

/-- The state after the two calls of `net_poll_close` on a live connection
`c` (whose content is `cl`) and a live `net_file_event` `fe`. -/
def closedWorld (s : net_server) (fe c : Nat) (cl : net_client) (w : World) : World :=
  { k := ({ w.k with regs := w.k.regs.filter (fun r => ¬ (r.epfd = s.epfd ∧ r.fd = cl.fd)) } :
            Kernel).close cl.fd
    heap := (w.heap.filter (fun e => e.1 != c)).filter (fun e => e.1 != fe)
    trace := w.trace ++ [Call.epoll_ctl_del s.epfd cl.fd (delCode w s.epfd cl.fd),
      Call.close cl.fd, Call.free c, Call.free fe] }

/-! ## The registration invariant -/

/-- The registration invariant of the reactor for the server object at `sp`
with content `s`, on the kernel state `k` and the heap `heap`.

* `sockets_registered`, `one_registration`: every open socket (the listener
  and each connection) has exactly one registration, and nothing else is
  registered;
* `binding`: the payload of each registration is a live `net_file_event`; the
  one of the listener points back to the server, the others point to a live
  `net_client` whose `fd` is the registered descriptor;
* `no_leak`: the heap holds the server, its batch buffer and the listener's
  `net_file_event`, plus one `net_client` and one `net_file_event` for each
  connection, and nothing else. -/
structure RegInv (sp : Nat) (s : net_server) (k : Kernel) (heap : List (Nat × Obj)) : Prop where
  server : hfind heap sp = some (Obj.server s)
  listener : s.fd ∈ k.socks
  instance_open : s.epfd ∈ k.epolls
  instance_nonneg : 0 ≤ s.epfd
  instance_no_socket : s.epfd ∉ k.socks
  zero_open : (0 : Int) ∈ k.other ∨ s.fd = 0
  socks_nonneg : ∀ fd ∈ k.socks, 0 ≤ fd
  socks_fresh : ∀ fd ∈ k.socks, fd ∉ k.other
  socks_nodup : k.socks.Nodup
  same_instance : ∀ r ∈ k.regs, r.epfd = s.epfd
  one_registration : (k.regs.map Reg.fd).Nodup
  sockets_registered : ∀ fd, fd ∈ k.socks ↔ fd ∈ k.regs.map Reg.fd
  binding : ∀ r ∈ k.regs, ∃ fe, hfind heap r.ptr = some (Obj.fevent fe) ∧
    ((r.fd = s.fd ∧ fe.type = net_file_event_type_server ∧ fe.ptr = sp) ∨
     (r.fd ≠ s.fd ∧ fe.type = net_file_event_type_client ∧
        ∃ cl, hfind heap fe.ptr = some (Obj.client cl) ∧ cl.fd = r.fd))
  keys_nodup : (heap.map Prod.fst).Nodup
  no_leak : heap.length = 2 * k.regs.length + 1

/-- A batch with at most one entry per registered descriptor: the entries
carry, in order, the payloads of registrations `rs` of pairwise different
descriptors. -/
def OnePerDescriptor (w : World) (batch : List Ready) : Prop :=
  ∃ rs : List Reg, (∀ r ∈ rs, r ∈ w.k.regs) ∧ (rs.map Reg.fd).Nodup ∧
    batch.map Ready.ptr = rs.map Reg.ptr

/-- The outcomes of `epoll_wait` considered: batches with at most one entry
per registered descriptor. -/
def WaitOk (w : World) : WaitResult Ready → Prop
  | WaitResult.ready batch => OnePerDescriptor w batch
  | _ => True

/-- A process before `net_server_start`: descriptors `other` are open, no
socket, no epoll instance, an empty heap. -/
def freshWorld (other : List Int) : World :=
  { k := { other := other, socks := [], epolls := [], regs := [] }, heap := [], trace := [] }

/-- The states reachable from a successful `net_server_start` (returning the
server `sp`) by `net_poll` cycles that return. -/
inductive Reachable (cfg : Config) (sp : Nat) : World → Prop where
  | start (other : List Int) (port : Nat) (env : StartEnv) (w : World) :
      sp ≠ 0 → net_server_start cfg port env (freshWorld other) = .ok (sp, w) →
      Reachable cfg sp w
  | poll (w w1 : World) (wait : WaitResult Ready) (n : Int) :
      Reachable cfg sp w → WaitOk w wait → net_poll cfg sp wait w = .ok (n, w1) →
      Reachable cfg sp w1

/-- The only way a step of the reactor can leave the defined behaviour of C
is the unchecked store of `net_client_read`; `P` holds of a state it
returns. -/
def Sound {α : Type} (P : α → Prop) : Except Fault α → Prop
  | .ok a => P a
  | .error f => f = Fault.buffer_overflow ∨ f = Fault.fatal

/-- The registration `r0` of the state `w` binds, through the
`net_file_event` `fe`, a connection; the invariant holds in `w`. -/
structure ConnAt (sp : Nat) (s : net_server) (r0 : Reg) (fe : net_file_event) (w : World) :
    Prop where
  inv : RegInv sp s w.k w.heap
  reg : r0 ∈ w.k.regs
  fev : hfind w.heap r0.ptr = some (Obj.fevent fe)
  ty : fe.type = net_file_event_type_client

/-- After servicing the entry of registration `r0` from a state with kernel
`k`: the invariant holds and every other registration is still there. -/
def Serviced (sp : Nat) (s : net_server) (r0 : Reg) (k : Kernel) (w1 : World) : Prop :=
  RegInv sp s w1.k w1.heap ∧ ∀ r ∈ k.regs, r.ptr ≠ r0.ptr → r ∈ w1.k.regs

/-- The `net_client` built by `net_client_create` for descriptor `fd`. -/
def newClient (cfg : Config) (env : AcceptEnv) (fd : Int) : net_client :=
  { fd := fd, ip := env.ip, port := env.port, buf := junkBuf cfg.slots env.junk_buf,
    buflen := env.junk_buflen }

/-- The heap after a successful `net_server_accept`: a `net_client` and the
`net_file_event` that points to it have been added. -/
def acceptedHeap (cfg : Config) (env : AcceptEnv) (fd : Int) (heap : List (Nat × Obj)) :
    List (Nat × Obj) :=
  heap ++ [(freshAddr heap, Obj.client (newClient cfg env fd))] ++
    [(freshAddr (heap ++ [(freshAddr heap, Obj.client (newClient cfg env fd))]),
      Obj.fevent ⟨freshAddr heap, net_file_event_type_client, 0⟩)]

/-- The kernel state after a successful `net_server_accept`: the new socket
is open and registered for reading and writing with payload `q`. -/
def acceptedKernel (s : net_server) (k : Kernel) (q : Nat) : Kernel :=
  { k with socks := k.socks ++ [lowestFd k.openFds],
           regs := k.regs ++ [⟨s.epfd, lowestFd k.openFds, EPOLLIN ||| EPOLLOUT, q⟩] }

/-- The kernel state after a successful `net_server_start` in a process
whose open descriptors were `other`: the listening socket and the epoll
instance took the two lowest free descriptors, and the listening socket is
registered for reading with the `net_file_event` at address 3. -/
def startKernel (other : List Int) : Kernel :=
  { other := other
    socks := [lowestFd other]
    epolls := [lowestFd (other ++ [lowestFd other])]
    regs := [⟨lowestFd (other ++ [lowestFd other]), lowestFd other, EPOLLIN, 3⟩] }

/-- The server structure built by a successful `net_server_start`. -/
def startServer (cfg : Config) (other : List Int) : net_server :=
  { fd := lowestFd other, epfd := lowestFd (other ++ [lowestFd other]), events := 2,
    max_events := cfg.NET_MAX_EVENTS }

/-- The heap after a successful `net_server_start` on an empty heap. -/
def startHeap (cfg : Config) (other : List Int) : List (Nat × Obj) :=
  [(1, Obj.server (startServer cfg other)), (2, Obj.batch cfg.NET_MAX_EVENTS),
   (3, Obj.fevent ⟨1, net_file_event_type_server, 0⟩)]

/-- The state right after `net_server_start` succeeded in `freshWorld [0, 1, 2]`. -/
def demoStarted : World :=
  { demoIdle with
    trace := [Call.signal_ignore_sigpipe, Call.malloc 1, Call.malloc 2, Call.socket 3,
      Call.setsockopt 3, Call.bind 3 8080 0, Call.listen 3 50 0, Call.epoll_create 4,
      Call.malloc 3, Call.epoll_ctl_add 4 3 1 3 0] }

/-- The state after one more cycle in which a connection was accepted. -/
def demoAccepted : World :=
  { demoConn with
    trace := demoStarted.trace ++ [Call.epoll_wait 4 1, Call.accept 3 5, Call.fcntl 5 0,
      Call.malloc 4, Call.malloc 5, Call.epoll_ctl_add 4 5 5 5 0] }

/-- The state after a third cycle in which the peer closed that connection. -/
def demoClosed : World :=
  { demoIdle with
    trace := demoAccepted.trace ++ [Call.epoll_wait 4 1, Call.read 5 16 0,
      Call.epoll_ctl_del 4 5 0, Call.close 5, Call.free 4, Call.free 5] }

/-! ## Theorems -/

/-! ## Lemmas on the heap model -/

theorem lookup_def (w : World) (p : Nat) : w.lookup p = hfind w.heap p := rfl

theorem hfind_nil (p : Nat) : hfind [] p = none := rfl

theorem hfind_cons (q : Nat) (o : Obj) (h : List (Nat × Obj)) (p : Nat) :
    hfind ((q, o) :: h) p = if q = p then some o else hfind h p := by
  unfold hfind
  by_cases hq : q = p
  · simp [List.find?, hq]
  · have hb : (q == p) = false := by simpa using hq
    simp [List.find?, hb, hq]

theorem hfind_eq_none {h : List (Nat × Obj)} {p : Nat} :
    hfind h p = none ↔ p ∉ h.map Prod.fst := by
  induction h with
  | nil => simp [hfind_nil]
  | cons e t ih =>
    obtain ⟨q, o⟩ := e
    rw [hfind_cons]
    by_cases hq : q = p
    · simp [hq]
    · simp only [hq, if_false, ih, List.map_cons, List.mem_cons, not_or]
      constructor
      · intro h1; exact ⟨fun h2 => hq h2.symm, h1⟩
      · intro h1; exact h1.2

theorem hfind_mem {h : List (Nat × Obj)} {p : Nat} {o : Obj} (hf : hfind h p = some o) :
    (p, o) ∈ h := by
  induction h with
  | nil => simp [hfind_nil] at hf
  | cons e t ih =>
    obtain ⟨q, o1⟩ := e
    rw [hfind_cons] at hf
    by_cases hq : q = p
    · simp only [hq, if_true, Option.some.injEq] at hf
      simp [hq, hf]
    · simp only [hq, if_false] at hf
      exact List.mem_cons_of_mem _ (ih hf)

theorem hfind_key {h : List (Nat × Obj)} {p : Nat} {o : Obj} (hf : hfind h p = some o) :
    p ∈ h.map Prod.fst :=
  List.mem_map.mpr ⟨(p, o), hfind_mem hf, rfl⟩

theorem hfind_of_mem {h : List (Nat × Obj)} {p : Nat} {o : Obj}
    (hn : (h.map Prod.fst).Nodup) (hm : (p, o) ∈ h) : hfind h p = some o := by
  induction h with
  | nil => simp at hm
  | cons e t ih =>
    obtain ⟨q, o1⟩ := e
    rw [hfind_cons]
    simp only [List.map_cons, List.nodup_cons] at hn
    rcases List.mem_cons.mp hm with h1 | h1
    · simp only [Prod.mk.injEq] at h1
      simp [h1.1, h1.2]
    · have hne : q ≠ p := by
        intro hq
        apply hn.1
        rw [hq]
        exact List.mem_map.mpr ⟨(p, o), h1, rfl⟩
      simp only [hne, if_false]
      exact ih hn.2 h1

theorem hfind_append (h : List (Nat × Obj)) (q : Nat) (o : Obj) (p : Nat) :
    hfind (h ++ [(q, o)]) p =
      match hfind h p with
      | some x => some x
      | none => if q = p then some o else none := by
  induction h with
  | nil => simp [hfind_cons, hfind_nil]
  | cons e t ih =>
    obtain ⟨q1, o1⟩ := e
    rw [List.cons_append, hfind_cons, hfind_cons]
    by_cases hq : q1 = p
    · simp [hq]
    · simp only [hq, if_false]
      exact ih

theorem hfind_filter (h : List (Nat × Obj)) (q p : Nat) :
    hfind (h.filter (fun e => e.1 != q)) p = if p = q then none else hfind h p := by
  induction h with
  | nil => simp [hfind_nil]
  | cons e t ih =>
    obtain ⟨q1, o1⟩ := e
    by_cases h1 : q1 = q
    · have : (List.filter (fun e => e.1 != q) ((q1, o1) :: t)) = List.filter (fun e => e.1 != q) t := by
        simp [List.filter, h1]
      rw [this, ih, hfind_cons]
      by_cases h2 : p = q
      · simp [h2]
      · have : q1 ≠ p := by rw [h1]; exact fun h => h2 h.symm
        simp [h2, this]
    · have : (List.filter (fun e => e.1 != q) ((q1, o1) :: t)) =
          (q1, o1) :: List.filter (fun e => e.1 != q) t := by
        have hb : (q1 != q) = true := by simpa using h1
        simp [List.filter, hb]
      rw [this, hfind_cons, hfind_cons, ih]
      by_cases h2 : q1 = p
      · have : p ≠ q := by rw [← h2]; exact h1
        simp [h2, this]
      · simp [h2]

theorem hfind_store (h : List (Nat × Obj)) (q : Nat) (o : Obj) (p : Nat) :
    hfind (h.map (fun e => if e.1 == q then (q, o) else e)) p =
      if p = q then (hfind h p).map (fun _ => o) else hfind h p := by
  induction h with
  | nil => simp [hfind_nil]
  | cons e t ih =>
    obtain ⟨q1, o1⟩ := e
    rw [List.map_cons, hfind_cons]
    by_cases h1 : q1 = q
    · simp only [h1, beq_self_eq_true, if_true]
      rw [hfind_cons]
      by_cases h2 : q = p
      · simp [h2]
      · have h3 : ¬ p = q := fun h => h2 h.symm
        simp only [h2, h3, if_false]
        rw [ih]; simp [h3]
    · have hb : (q1 == q) = false := by simpa using h1
      simp only [hb, Bool.false_eq_true, if_false]
      rw [hfind_cons, ih]
      by_cases h2 : q1 = p
      · have h3 : ¬ p = q := by rw [← h2]; exact h1
        simp [h2, h3]
      · simp [h2]

theorem keys_store (h : List (Nat × Obj)) (q : Nat) (o : Obj) :
    (h.map (fun e => if e.1 == q then (q, o) else e)).map Prod.fst = h.map Prod.fst := by
  induction h with
  | nil => rfl
  | cons e t ih =>
    obtain ⟨q1, o1⟩ := e
    simp only [List.map_cons, ih]
    by_cases h1 : q1 = q
    · simp [h1]
    · simp [h1]

/-! ## Lemmas on fresh descriptors and addresses -/

theorem find_free {α : Type} [DecidableEq α] (cands used : List α) (hn : cands.Nodup)
    (hl : used.length < cands.length) :
    ∃ x, cands.find? (fun n => decide (n ∉ used)) = some x ∧ x ∈ cands ∧ x ∉ used := by
  cases hf : cands.find? (fun n => decide (n ∉ used)) with
  | none =>
    exfalso
    rw [List.find?_eq_none] at hf
    have hsub : cands ⊆ used := by
      intro x hx
      have := hf x hx
      simpa using this
    have := (List.subperm_of_subset hn hsub).length_le
    omega
  | some x =>
    refine ⟨x, rfl, List.mem_of_find?_eq_some hf, ?_⟩
    have := List.find?_some hf
    simpa using this

theorem lowestFd_spec (used : List Int) : lowestFd used ∉ used ∧ 0 ≤ lowestFd used := by
  have hn : ((List.range (used.length + 1)).map Int.ofNat).Nodup :=
    (List.nodup_range _).map (fun a b h => Int.ofNat.inj h)
  obtain ⟨x, hx, hm, hu⟩ := find_free ((List.range (used.length + 1)).map Int.ofNat) used hn
    (by simp)
  unfold lowestFd
  rw [hx]
  refine ⟨hu, ?_⟩
  obtain ⟨n, _, hn2⟩ := List.mem_map.mp hm
  simp only [Option.getD_some]
  rw [← hn2]
  exact Int.ofNat_nonneg n

theorem lowestFd_zero (used : List Int) (h : (0 : Int) ∉ used) : lowestFd used = 0 := by
  unfold lowestFd
  rw [List.range_succ_eq_map]
  simp [List.find?, h]

theorem freshAddr_spec (heap : List (Nat × Obj)) :
    freshAddr heap ∉ heap.map Prod.fst ∧ freshAddr heap ≠ 0 := by
  have hn : ((List.range (heap.length + 1)).map (· + 1)).Nodup :=
    (List.nodup_range _).map (fun a b h => by simpa using h)
  obtain ⟨x, hx, hm, hu⟩ := find_free ((List.range (heap.length + 1)).map (· + 1))
    (heap.map Prod.fst) hn (by simp)
  unfold freshAddr
  rw [hx]
  refine ⟨hu, ?_⟩
  obtain ⟨n, _, hn2⟩ := List.mem_map.mp hm
  simp only [Option.getD_some]
  rw [← hn2]
  exact Nat.succ_ne_zero n

/-! ## Lemmas on the calls -/

theorem lookup_log (w : World) (c : Call) (p : Nat) : (w.log c).lookup p = w.lookup p := rfl

theorem lookup_store (w : World) (q : Nat) (o : Obj) (p : Nat) :
    (w.store q o).lookup p = if p = q then (w.lookup p).map (fun _ => o) else w.lookup p :=
  hfind_store w.heap q o p

theorem lookup_store_same (w : World) (q : Nat) (o o1 : Obj) (h : w.lookup q = some o1) :
    (w.store q o).lookup q = some o := by
  rw [lookup_store, h]; simp

theorem sys_free_ok (w : World) (p : Nat) (h : p ∈ w.heap.map Prod.fst) :
    sys_free w p = .ok { w with heap := w.heap.filter (fun e => e.1 != p),
                                trace := w.trace ++ [Call.free p] } := by
  unfold sys_free
  have : (w.heap.map Prod.fst).contains p = true := by simpa using h
  rw [if_pos this]

theorem sys_epoll_ctl_del_eq (w : World) (epfd fd : Int) :
    sys_epoll_ctl_del w epfd fd =
      { w with k := { w.k with regs := w.k.regs.filter (fun r => ¬ (r.epfd = epfd ∧ r.fd = fd)) },
               trace := w.trace ++ [Call.epoll_ctl_del epfd fd (delCode w epfd fd)] } := by
  unfold sys_epoll_ctl_del delCode
  by_cases h : ∃ r ∈ w.k.regs, r.epfd = epfd ∧ r.fd = fd
  · simp only [h, decide_True, if_true]
  · simp only [h, decide_False, Bool.false_eq_true, if_false, World.log]
    have : w.k.regs.filter (fun r => ¬ (r.epfd = epfd ∧ r.fd = fd)) = w.k.regs := by
      rw [List.filter_eq_self]
      intro r hr
      simp only [decide_eq_true_eq]
      intro h2
      exact h ⟨r, hr, h2⟩
    rw [this]

theorem net_client_close_ok (s : net_server) (c : Nat) (cl : net_client) (w : World)
    (h : w.lookup c = some (Obj.client cl)) :
    net_client_close s c w = .ok
      { k := ({ w.k with regs := w.k.regs.filter (fun r => ¬ (r.epfd = s.epfd ∧ r.fd = cl.fd)) } :
            Kernel).close cl.fd
        heap := w.heap.filter (fun e => e.1 != c)
        trace := w.trace ++ [Call.epoll_ctl_del s.epfd cl.fd (delCode w s.epfd cl.fd),
          Call.close cl.fd, Call.free c] } := by
  unfold net_client_close
  rw [h]
  simp only
  rw [sys_epoll_ctl_del_eq, sys_free_ok]
  · simp [sys_close]
  · exact hfind_key h

theorem net_poll_close_ok (s : net_server) (fe c : Nat) (cl : net_client) (w : World)
    (h : w.lookup c = some (Obj.client cl)) (hfe : fe ∈ w.heap.map Prod.fst) (hne : fe ≠ c) :
    net_poll_close s fe c w = .ok (closedWorld s fe c cl w) := by
  unfold net_poll_close
  rw [net_client_close_ok s c cl w h]
  simp only [net_file_event_destroy]
  rw [sys_free_ok]
  · simp [closedWorld]
  · simp only
    obtain ⟨e, he, hk⟩ := List.mem_map.mp hfe
    refine List.mem_map.mpr ⟨e, List.mem_filter.mpr ⟨he, ?_⟩, hk⟩
    simp [hk, hne]

theorem closedWorld_lookup (s : net_server) (fe c : Nat) (cl : net_client) (w : World) (p : Nat) :
    (closedWorld s fe c cl w).lookup p = if p = fe ∨ p = c then none else w.lookup p := by
  simp only [lookup_def, closedWorld, hfind_filter]
  by_cases h1 : p = fe
  · simp [h1]
  · by_cases h2 : p = c
    · simp [h2]
    · simp [h1, h2]

theorem closedWorld_fd (s : net_server) (fe c : Nat) (cl : net_client) (w : World) :
    cl.fd ∉ (closedWorld s fe c cl w).k.openFds ∧
      ∀ r ∈ (closedWorld s fe c cl w).k.regs, r.fd ≠ cl.fd := by
  constructor
  · simp [closedWorld, Kernel.close, Kernel.openFds, List.mem_filter]
  · intro r hr
    simp only [closedWorld, Kernel.close, List.mem_filter, decide_eq_true_eq] at hr
    exact hr.2.1

/-! ## The write path -/

theorem store_ids_append (res pre suf : List Int) (h : res.length ≤ suf.length) :
    store_ids (pre ++ suf) pre.length res = some (pre ++ res ++ suf.drop res.length) := by
  induction res generalizing pre suf with
  | nil => simp [store_ids]
  | cons id rest ih =>
    cases suf with
    | nil => simp at h
    | cons x suf1 =>
      simp only [List.length_cons, Nat.add_le_add_iff_right] at h
      have hi : pre.length < (pre ++ x :: suf1).length := by simp
      simp only [store_ids, hi, if_true]
      have hset : (pre ++ x :: suf1).set pre.length id = (pre ++ [id]) ++ suf1 := by
        simp [List.set_append]
      rw [hset]
      have := ih (pre ++ [id]) suf1 h
      simp only [List.length_append, List.length_singleton] at this
      rw [this]
      simp

theorem store_ids_fits (res buf : List Int) (h : res.length ≤ buf.length) :
    store_ids buf 0 res = some (res ++ buf.drop res.length) := by
  have := store_ids_append res [] buf h
  simpa using this

theorem store_ids_overflow (res buf : List Int) (i : Nat) (hi : i ≤ buf.length)
    (h : buf.length < i + res.length) : store_ids buf i res = none := by
  induction res generalizing buf i with
  | nil => simp at h; omega
  | cons id rest ih =>
    simp only [List.length_cons] at h
    by_cases hlt : i < buf.length
    · simp only [store_ids, hlt, if_true]
      exact ih (buf.set i id) (i + 1) (by simp; omega) (by simp; omega)
    · simp [store_ids, hlt]

/-! ## Write path (C4) -/

/-- C4: postcondition of `net_client_write` on a connection with pending
length `L = cl.buflen`. If `L = 0` nothing is written, `0` is returned and the
state is unchanged. If `L > 0` and the write reports an error, `-1` is
returned and the connection is unchanged (its pending length stays `L`). If
`L > 0` and the write reports `n` transmitted bytes, `n` is returned and the
pending length becomes `0`, whether or not `n < L`. -/
theorem net_client_write_post (c : Nat) (cl : net_client) (wr : Option Nat) (w : World)
    (h : w.lookup c = some (Obj.client cl)) :
    (cl.buflen = 0 → net_client_write c wr w = .ok (0, w)) ∧
    (0 < cl.buflen → (sys_write w cl.fd cl.buflen wr).1 = -1 →
      ∃ w1, net_client_write c wr w = .ok (-1, w1) ∧
        w1.lookup c = some (Obj.client cl) ∧
        w1.trace = w.trace ++ [Call.write cl.fd cl.buflen (-1)]) ∧
    (∀ n : Nat, 0 < cl.buflen → (sys_write w cl.fd cl.buflen wr).1 = Int.ofNat n →
      ∃ w1, net_client_write c wr w = .ok (Int.ofNat n, w1) ∧
        w1.lookup c = some (Obj.client { cl with buflen := 0 }) ∧
        w1.trace = w.trace ++ [Call.write cl.fd cl.buflen (Int.ofNat n)]) := by
  refine ⟨?_, ?_, ?_⟩
  · intro h0
    simp [net_client_write, h, h0]
  · intro hpos herr
    have hne : cl.buflen ≠ 0 := by omega
    refine ⟨(sys_write w cl.fd cl.buflen wr).2, ?_, ?_, ?_⟩
    · simp [net_client_write, h, hne, herr]
    · exact h
    · have : (sys_write w cl.fd cl.buflen wr).2 =
          w.log (Call.write cl.fd cl.buflen (sys_write w cl.fd cl.buflen wr).1) := rfl
      rw [this, herr]; rfl
  · intro n hpos hn
    have hne : cl.buflen ≠ 0 := by omega
    have hn1 : (sys_write w cl.fd cl.buflen wr).1 ≠ -1 := by
      rw [hn]; exact fun h => by cases h
    refine ⟨(sys_write w cl.fd cl.buflen wr).2.store c (Obj.client { cl with buflen := 0 }),
      ?_, ?_, ?_⟩
    · simp [net_client_write, h, hne, hn1, hn]
    · exact lookup_store_same _ _ _ _ h
    · have : (sys_write w cl.fd cl.buflen wr).2 =
          w.log (Call.write cl.fd cl.buflen (sys_write w cl.fd cl.buflen wr).1) := rfl
      rw [this, hn]; rfl

/-- Witness of C4 on a connection with four pending bytes of which the kernel
takes two. -/
theorem net_client_write_post_witness :
    (demoConn.store 4 (Obj.client ⟨5, 1, 2, [7, 0], 4⟩)).lookup 4 =
        some (Obj.client ⟨5, 1, 2, [7, 0], 4⟩) ∧
    ∃ w1, net_client_write 4 (some 2) (demoConn.store 4 (Obj.client ⟨5, 1, 2, [7, 0], 4⟩)) =
        .ok (Int.ofNat 2, w1) ∧
      w1.lookup 4 = some (Obj.client ⟨5, 1, 2, [7, 0], 0⟩) ∧
      w1.trace = [] ++ [Call.write 5 4 (Int.ofNat 2)] :=
  ⟨by decide, (net_client_write_post 4 ⟨5, 1, 2, [7, 0], 4⟩ (some 2)
    (demoConn.store 4 (Obj.client ⟨5, 1, 2, [7, 0], 4⟩)) (by decide)).2.2 2 (by decide)
    (by decide)⟩

/-! ## Read path -/

theorem sys_read_world (w : World) (fd : Int) (n : Nat) (inb : Inbound) :
    (sys_read w fd n inb).2.2 = w.log (Call.read fd n (sys_read w fd n inb).1) := by
  unfold sys_read
  cases inb with
  | data bytes => by_cases h : fd ∈ w.k.socks ∧ bytes ≠ [] <;> simp [h]
  | eof => by_cases h : fd ∈ w.k.socks <;> simp [h]
  | err => rfl

theorem sys_read_short (w : World) (fd : Int) (inb : Inbound)
    (h : ∀ bytes, inb = Inbound.data bytes → bytes.length < 16) :
    (sys_read w fd 16 inb).1 ≠ 16 := by
  unfold sys_read
  cases inb with
  | data bytes =>
    have hl := h bytes rfl
    show (if fd ∈ w.k.socks ∧ bytes ≠ [] then _ else _ : Int × List Nat × World).1 ≠ 16
    split
    · simp only [List.length_take]
      intro h2
      have : ((min 16 bytes.length : Nat) : Int) = 16 := h2
      omega
    · intro h2
      have : (-1 : Int) = 16 := h2
      omega
  | eof => by_cases h1 : fd ∈ w.k.socks <;> simp [h1]
  | err => simp

theorem sys_read_full (w : World) (fd : Int) (bytes : List Nat) (hfd : fd ∈ w.k.socks)
    (hlen : 16 ≤ bytes.length) :
    sys_read w fd 16 (Inbound.data bytes) =
      (16, bytes.take 16, w.log (Call.read fd 16 16)) := by
  have hne : bytes ≠ [] := by
    intro h; rw [h] at hlen; simp at hlen
  have hl : (bytes.take 16).length = 16 := by simp [hlen]
  simp only [sys_read, hfd, hne, ne_eq, not_false_eq_true, and_self, if_true, hl]
  rfl

theorem net_client_read_short (cfg : Config) (c : Nat) (cl : net_client) (inb : Inbound)
    (w : World) (h : w.lookup c = some (Obj.client cl))
    (hs : (sys_read w cl.fd 16 inb).1 ≠ 16) :
    net_client_read cfg c inb w =
      .ok (if (sys_read w cl.fd 16 inb).1 = 0 then 0 else -1,
        w.log (Call.read cl.fd 16 (sys_read w cl.fd 16 inb).1)) := by
  unfold net_client_read
  rw [h]
  simp only
  rw [sys_read_world]
  by_cases h0 : (sys_read w cl.fd 16 inb).1 = 0
  · simp [h0]
  · have : (sys_read w cl.fd 16 inb).1 ≠ Int.ofNat 16 := hs
    simp [h0, this, hs]

theorem read_frame_eq (cfg : Config) (c : Nat) (cl : net_client) (bytes : List Nat)
    (w : World) (h : w.lookup c = some (Obj.client cl)) (hfd : cl.fd ∈ w.k.socks)
    (hlen : 16 ≤ bytes.length) :
    net_client_read cfg c (Inbound.data bytes) w =
      match store_ids cl.buf 0 (cfg.world_get_cities_in_bounding_box
          (coord (bytes.take 16) 0) (coord (bytes.take 16) 1)
          (coord (bytes.take 16) 2) (coord (bytes.take 16) 3)) with
      | none => .error Fault.buffer_overflow
      | some buf1 =>
        .ok (16, ((w.log (Call.read cl.fd 16 16)).log
          (Call.query (coord (bytes.take 16) 0) (coord (bytes.take 16) 1)
            (coord (bytes.take 16) 2) (coord (bytes.take 16) 3))).store c
          (Obj.client { cl with buf := buf1, buflen := 4 * (cfg.world_get_cities_in_bounding_box
            (coord (bytes.take 16) 0) (coord (bytes.take 16) 1)
            (coord (bytes.take 16) 2) (coord (bytes.take 16) 3)).length })) := by
  unfold net_client_read
  rw [h]
  simp only
  rw [sys_read_full w cl.fd bytes hfd hlen]
  have h1 : ¬ (Int.ofNat 16 = 0) := by decide
  simp only [h1, if_false, ne_eq, not_true_eq_false]
  rfl

/-- C2: `net_client_read` on a read that delivers 16 bytes. The four
coordinates are taken from the bytes in the order min-x, min-y, max-x, max-y
and passed to the spatial index. When the `N` identifiers it returns fit the
outbound buffer, the function returns 16, the first `N` slots hold the
identifiers in the order of the index, the other slots are untouched and the
pending length is `4 * N`, replacing what was staged. When they do not fit,
the loop of `net_client_read` stores past the end of the buffer. -/
theorem net_client_read_full (cfg : Config) (c : Nat) (cl : net_client) (bytes : List Nat)
    (w : World) (h : w.lookup c = some (Obj.client cl)) (hfd : cl.fd ∈ w.k.socks)
    (hlen : 16 ≤ bytes.length) :
    let data := bytes.take 16
    let res := cfg.world_get_cities_in_bounding_box
      (coord data 0) (coord data 1) (coord data 2) (coord data 3)
    (res.length ≤ cl.buf.length →
      ∃ w1, net_client_read cfg c (Inbound.data bytes) w = .ok (16, w1) ∧
        w1.lookup c = some (Obj.client
          { cl with buf := res ++ cl.buf.drop res.length, buflen := 4 * res.length }) ∧
        w1.trace = w.trace ++ [Call.read cl.fd 16 16,
          Call.query (coord data 0) (coord data 1) (coord data 2) (coord data 3)]) ∧
    (cl.buf.length < res.length →
      net_client_read cfg c (Inbound.data bytes) w = .error Fault.buffer_overflow) := by
  intro data res
  constructor
  · intro hfit
    rw [read_frame_eq cfg c cl bytes w h hfd hlen, store_ids_fits _ _ hfit]
    refine ⟨_, rfl, ?_, ?_⟩
    · exact lookup_store_same _ _ _ _ h
    · simp [World.store, World.log]
  · intro hbig
    rw [read_frame_eq cfg c cl bytes w h hfd hlen,
      store_ids_overflow _ _ 0 (Nat.zero_le _) (by simpa using hbig)]

/-- Witness of C2 at an input that does not fit: a two-slot buffer and an
index that finds three cities. -/
theorem net_client_read_full_witness :
    net_client_read demoCfg3 4 (Inbound.data (List.replicate 16 0)) demoConn =
      .error Fault.buffer_overflow :=
  (net_client_read_full demoCfg3 4 ⟨5, 1, 2, [0, 0], 0⟩ (List.replicate 16 0) demoConn
    (by decide) (by decide) (by decide)).2 (by decide)

/-- C3: the capacity invariant is not preserved. On a connection whose
pending length is within the capacity of its buffer, a 16-byte request whose
result set needs more bytes than the buffer has makes `net_client_read` store
past the end of the buffer. -/
theorem net_client_read_overflow (cfg : Config) (c : Nat) (cl : net_client) (bytes : List Nat)
    (w : World) (h : w.lookup c = some (Obj.client cl)) (hfd : cl.fd ∈ w.k.socks)
    (hlen : 16 ≤ bytes.length) (hcap : cl.buf.length = cfg.slots)
    (_hinv : cl.buflen ≤ cfg.bufsize)
    (hbig : cfg.bufsize < 4 * (cfg.world_get_cities_in_bounding_box
      (coord (bytes.take 16) 0) (coord (bytes.take 16) 1)
      (coord (bytes.take 16) 2) (coord (bytes.take 16) 3)).length) :
    net_client_read cfg c (Inbound.data bytes) w = .error Fault.buffer_overflow := by
  rw [read_frame_eq cfg c cl bytes w h hfd hlen,
    store_ids_overflow _ _ 0 (Nat.zero_le _)]
  rw [hcap]
  unfold Config.slots
  simp only [Nat.zero_add]
  omega

/-- Witness of C3: a connection with an empty 8-byte buffer and a request
that matches three cities (12 bytes). -/
theorem net_client_read_overflow_witness :
    net_client_read demoCfg3 4 (Inbound.data (List.replicate 20 7)) demoConn =
      .error Fault.buffer_overflow :=
  net_client_read_overflow demoCfg3 4 ⟨5, 1, 2, [0, 0], 0⟩ (List.replicate 20 7) demoConn
    (by decide) (by decide) (by decide) (by decide) (by decide) (by decide)

/-! ## Closing a connection -/

theorem net_poll_close_spec (s : net_server) (fep c : Nat) (cl : net_client)
    (fe : net_file_event) (w : World) (hc : w.lookup c = some (Obj.client cl))
    (hfe : w.lookup fep = some (Obj.fevent fe)) :
    ∃ w2, net_poll_close s fep c w = .ok w2 ∧ ClosedAfter s fep c cl.fd w.trace w2 := by
  have hne : fep ≠ c := by
    intro h
    rw [h, hc] at hfe
    cases hfe
  refine ⟨closedWorld s fep c cl w, net_poll_close_ok s fep c cl w hc (hfind_key hfe) hne, ?_⟩
  refine ⟨⟨delCode w s.epfd cl.fd, rfl⟩, (closedWorld_fd s fep c cl w).1,
    (closedWorld_fd s fep c cl w).2, ?_, ?_⟩
  · rw [closedWorld_lookup]; simp
  · rw [closedWorld_lookup]; simp

/-! ## Dispatch of one ready entry -/

theorem net_poll_event_client (cfg : Config) (s : net_server) (e : Ready) (w : World)
    (fe : net_file_event) (hfe : w.lookup e.ptr = some (Obj.fevent fe))
    (hty : fe.type = net_file_event_type_client) :
    net_poll_event cfg s e w = net_poll_in cfg s e.ptr fe.ptr e w := by
  unfold net_poll_event
  rw [hfe]
  simp [hty]

/-- C1 (amended): a request shorter than 16 bytes, an end of stream or a read
error on a readable connection. `net_client_read` reports a non-positive
outcome and leaves the heap, hence the outbound buffer and the pending
length, as they were; servicing the event closes the connection, and the
only calls made are the `read` and those of the close: no `write`. -/
theorem short_read_closes (cfg : Config) (s : net_server) (e : Ready) (w : World)
    (fe : net_file_event) (cl : net_client)
    (hfe : w.lookup e.ptr = some (Obj.fevent fe))
    (hty : fe.type = net_file_event_type_client)
    (hc : w.lookup fe.ptr = some (Obj.client cl))
    (hin : testFlag e.events EPOLLIN = true)
    (hshort : ∀ bytes, e.inbound = Inbound.data bytes → bytes.length < 16) :
    ∃ r n w1 w2, r ≤ 0 ∧ n ≠ 16 ∧
      net_client_read cfg fe.ptr e.inbound w = .ok (r, w1) ∧
      w1.heap = w.heap ∧ w1.trace = w.trace ++ [Call.read cl.fd 16 n] ∧
      net_poll_event cfg s e w = .ok w2 ∧
      ClosedAfter s e.ptr fe.ptr cl.fd (w.trace ++ [Call.read cl.fd 16 n]) w2 := by
  have hn := sys_read_short w cl.fd e.inbound hshort
  have hr := net_client_read_short cfg fe.ptr cl e.inbound w hc hn
  have hle : (if (sys_read w cl.fd 16 e.inbound).1 = 0 then (0 : Int) else -1) ≤ 0 := by
    split <;> decide
  obtain ⟨w2, hw2, hcl⟩ := net_poll_close_spec s e.ptr fe.ptr cl fe
    (w.log (Call.read cl.fd 16 (sys_read w cl.fd 16 e.inbound).1)) hc hfe
  refine ⟨_, (sys_read w cl.fd 16 e.inbound).1, _, w2, hle, hn, hr, rfl, rfl, ?_, hcl⟩
  rw [net_poll_event_client cfg s e w fe hfe hty]
  unfold net_poll_in
  rw [if_pos hin, hr]
  simp only [hle, if_true]
  exact hw2

/-- Witness of C1 (amended): an 8-byte request on the connection of
`demoConn`. -/
theorem short_read_closes_witness :
    ∃ r n w1 w2, r ≤ 0 ∧ n ≠ 16 ∧
      net_client_read demoCfg 4 (Inbound.data (List.replicate 8 0)) demoConn = .ok (r, w1) ∧
      w1.heap = demoConn.heap ∧ w1.trace = demoConn.trace ++ [Call.read 5 16 n] ∧
      net_poll_event demoCfg demoSrv
        (demoReady 5 5 (Inbound.data (List.replicate 8 0)) (some 4)) demoConn = .ok w2 ∧
      ClosedAfter demoSrv 5 4 5 (demoConn.trace ++ [Call.read 5 16 n]) w2 :=
  short_read_closes demoCfg demoSrv (demoReady 5 5 (Inbound.data (List.replicate 8 0)) (some 4))
    demoConn ⟨4, net_file_event_type_client, 0⟩ ⟨5, 1, 2, [0, 0], 0⟩ (by decide) (by decide)
    (by decide) (by decide) (by
      intro bytes hb
      have : bytes = List.replicate 8 0 := by
        simp only [demoReady, Inbound.data.injEq] at hb
        exact hb.symm
      rw [this]
      decide)

/-- C1, counterexample: a 20-byte request on a readable and writable
connection. `read` takes the first 16 bytes, `net_client_read` returns 16,
the response is staged and 4 bytes are written; the connection stays open
and registered. -/
theorem long_request_is_served :
    (net_client_read demoCfg 4 (Inbound.data (List.replicate 20 0)) demoConn).toOption.map
        Prod.fst = some 16 ∧
    (net_poll_event demoCfg demoSrv
        (demoReady 5 5 (Inbound.data (List.replicate 20 0)) (some 4)) demoConn).toOption.map
        (fun w => (w.trace, w.k.socks, w.k.regs.map Reg.fd)) =
      some ([Call.read 5 16 16, Call.query [0, 0, 0, 0] [0, 0, 0, 0] [0, 0, 0, 0] [0, 0, 0, 0],
        Call.write 5 4 4], [3, 5], [3, 5]) := by
  decide

/-! ## The value returned by `net_poll` (C5) -/

/-- C5 (amended): `net_poll` hands back the value of the wait call. After a
successful wait it services the delivered entries in order and returns their
number; after an interrupted wait it services nothing, leaves the state as it
was and returns `-1`; any other failure of the wait is fatal. -/
theorem net_poll_result (cfg : Config) (sp : Nat) (s : net_server) (w : World)
    (hs : w.lookup sp = some (Obj.server s)) (hep : s.epfd ∈ w.k.epolls) :
    net_poll cfg sp WaitResult.interrupted w =
        .ok (-1, w.log (Call.epoll_wait s.epfd (-1))) ∧
    net_poll cfg sp WaitResult.failed w = .error Fault.fatal ∧
    ∀ batch : List Ready, net_poll cfg sp (WaitResult.ready batch) w =
      (net_poll_loop cfg s (batch.take s.max_events)
        (w.log (Call.epoll_wait s.epfd (Int.ofNat (batch.take s.max_events).length)))).map
        (fun w2 => (Int.ofNat (batch.take s.max_events).length, w2)) := by
  refine ⟨?_, ?_, ?_⟩
  · simp [net_poll, hs, sys_epoll_wait, hep]
  · simp [net_poll, hs, sys_epoll_wait, hep, log_fatal]
  · intro batch
    simp only [net_poll, hs, sys_epoll_wait, hep, if_true]
    cases net_poll_loop cfg s (batch.take s.max_events)
      (w.log (Call.epoll_wait s.epfd (Int.ofNat (batch.take s.max_events).length))) <;> rfl

/-- Witness of C5 (amended) on an idle server. -/
theorem net_poll_result_witness :
    net_poll demoCfg 1 WaitResult.interrupted demoIdle =
      .ok (-1, demoIdle.log (Call.epoll_wait 4 (-1))) :=
  (net_poll_result demoCfg 1 demoSrv demoIdle (by decide) (by decide)).1

/-- C5, counterexample: after an interrupted wait `net_poll` returns `-1`,
not `0`. -/
theorem net_poll_interrupted_returns_minus_one :
    (net_poll demoCfg 1 WaitResult.interrupted demoIdle).toOption.map Prod.fst = some (-1) := by
  decide

/-! ## Hangup and error flags (C6) -/

theorem net_poll_hup_spec (s : net_server) (fep c : Nat) (cl : net_client)
    (fe : net_file_event) (e : Ready) (w : World)
    (hc : w.lookup c = some (Obj.client cl)) (hfe : w.lookup fep = some (Obj.fevent fe))
    (hup : testFlag e.events EPOLLHUP = true ∨ testFlag e.events EPOLLERR = true) :
    ∃ w2, net_poll_hup s fep c e w = .ok w2 ∧ ClosedAfter s fep c cl.fd w.trace w2 := by
  unfold net_poll_hup
  have : (testFlag e.events EPOLLHUP || testFlag e.events EPOLLERR) = true := by
    rcases hup with h | h <;> simp [h]
  rw [if_pos this]
  exact net_poll_close_spec s fep c cl fe w hc hfe

theorem lookup_store_other (w : World) (q : Nat) (o : Obj) (p : Nat) (h : p ≠ q) :
    (w.store q o).lookup p = w.lookup p := by
  rw [lookup_store, if_neg h]

theorem net_poll_out_spec (s : net_server) (fep c : Nat) (cl : net_client)
    (fe : net_file_event) (e : Ready) (w : World)
    (hc : w.lookup c = some (Obj.client cl)) (hfe : w.lookup fep = some (Obj.fevent fe))
    (hup : testFlag e.events EPOLLHUP = true ∨ testFlag e.events EPOLLERR = true) :
    ∃ w2 mid, net_poll_out s fep c e w = .ok w2 ∧
      ClosedAfter s fep c cl.fd (w.trace ++ mid) w2 ∧
      (∀ x ∈ mid, ∃ n r, x = Call.write cl.fd n r) ∧
      mid = (if testFlag e.events EPOLLOUT = true ∧ cl.buflen ≠ 0 then
        [Call.write cl.fd cl.buflen (sys_write w cl.fd cl.buflen e.wr).1] else []) := by
  have hne : fep ≠ c := by
    intro h
    rw [h, hc] at hfe
    cases hfe
  unfold net_poll_out
  by_cases hout : testFlag e.events EPOLLOUT = true
  · rw [if_pos hout]
    unfold net_client_write
    rw [hc]
    by_cases hl : cl.buflen = 0
    · simp only [hl, ne_eq, not_true_eq_false, if_false]
      have h01 : ¬ ((0 : Int) = -1) := by decide
      simp only [h01, if_false]
      obtain ⟨w2, h1, h2⟩ := net_poll_hup_spec s fep c cl fe e w hc hfe hup
      exact ⟨w2, [], h1, by simpa using h2, by simp, by simp [hl]⟩
    · simp only [ne_eq, hl, not_false_eq_true, if_true]
      by_cases hn : (sys_write w cl.fd cl.buflen e.wr).1 = -1
      · simp only [hn, if_true]
        obtain ⟨w2, h1, h2⟩ := net_poll_close_spec s fep c cl fe
          (sys_write w cl.fd cl.buflen e.wr).2 hc hfe
        refine ⟨w2, [Call.write cl.fd cl.buflen (sys_write w cl.fd cl.buflen e.wr).1], h1, h2,
          ?_, by simp [hout, hl, hn]⟩
        intro x hx
        exact ⟨_, _, List.mem_singleton.mp hx⟩
      · simp only [hn, if_false]
        obtain ⟨w2, h1, h2⟩ := net_poll_hup_spec s fep c { cl with buflen := 0 } fe e
          ((sys_write w cl.fd cl.buflen e.wr).2.store c (Obj.client { cl with buflen := 0 }))
          (lookup_store_same _ _ _ _ hc)
          (by rw [lookup_store_other _ _ _ _ hne]; exact hfe) hup
        refine ⟨w2, [Call.write cl.fd cl.buflen (sys_write w cl.fd cl.buflen e.wr).1], h1, h2,
          ?_, by simp [hout, hl]⟩
        intro x hx
        exact ⟨_, _, List.mem_singleton.mp hx⟩
  · rw [if_neg hout]
    obtain ⟨w2, h1, h2⟩ := net_poll_hup_spec s fep c cl fe e w hc hfe hup
    exact ⟨w2, [], h1, by simpa using h2, by simp, by simp [hout]⟩

theorem sys_read_full_inv (w : World) (fd : Int) (inb : Inbound)
    (h : (sys_read w fd 16 inb).1 = 16) :
    ∃ bytes, inb = Inbound.data bytes ∧ fd ∈ w.k.socks ∧ 16 ≤ bytes.length := by
  cases inb with
  | data bytes =>
    refine ⟨bytes, rfl, ?_⟩
    simp only [sys_read] at h
    split at h
    · rename_i hh
      have h17 : ((bytes.take 16).length : Int) = 16 := h
      simp only [List.length_take] at h17
      exact ⟨hh.1, by omega⟩
    · have : (-1 : Int) = 16 := h
      omega
  | eof =>
    simp only [sys_read] at h
    split at h
    · have : (0 : Int) = 16 := h
      omega
    · have : (-1 : Int) = 16 := h
      omega
  | err =>
    have : (-1 : Int) = 16 := h
    omega

/-- C6 (amended): a ready entry of a connection whose mask holds the hangup
or the error flag. The connection is closed exactly once, as the last thing
done for the entry, but the close does not supersede the other handling. The
calls made before the close are exactly, in this order: those of the read
path (`readPathCalls`: the `read` whenever the readable bit is set, followed
by the spatial query when a full frame was read), then those of the write
path (`writePathCalls`: the `write` of the pending bytes whenever the read
path did not close the connection, the writable bit is set and bytes are
pending, the response just staged included). The result set of a 16-byte
request is assumed to fit the buffer. -/
theorem hangup_closes_after_io (cfg : Config) (s : net_server) (e : Ready) (w : World)
    (fe : net_file_event) (cl : net_client)
    (hfe : w.lookup e.ptr = some (Obj.fevent fe))
    (hty : fe.type = net_file_event_type_client)
    (hc : w.lookup fe.ptr = some (Obj.client cl))
    (hup : testFlag e.events EPOLLHUP = true ∨ testFlag e.events EPOLLERR = true)
    (hfit : ∀ a b c d, (cfg.world_get_cities_in_bounding_box a b c d).length ≤ cl.buf.length) :
    ∃ w2 mid, net_poll_event cfg s e w = .ok w2 ∧
      ClosedAfter s e.ptr fe.ptr cl.fd (w.trace ++ mid) w2 ∧
      (∀ x ∈ mid, x.onDataPath = true) ∧
      ((∃ n r, Call.read cl.fd n r ∈ mid) ↔ testFlag e.events EPOLLIN = true) ∧
      mid = readPathCalls w cl e ++ writePathCalls cfg w cl e := by
  have hne : e.ptr ≠ fe.ptr := by
    intro h
    rw [h, hc] at hfe
    cases hfe
  rw [net_poll_event_client cfg s e w fe hfe hty]
  unfold net_poll_in
  by_cases hin : testFlag e.events EPOLLIN = true
  · rw [if_pos hin]
    by_cases h16 : (sys_read w cl.fd 16 e.inbound).1 = 16
    · -- a full frame: the query runs, then the write path, then the close
      have hrd := sys_read_full_inv w cl.fd e.inbound h16
      obtain ⟨bytes, hb, hfd, hlen⟩ := hrd
      have hf := hfit (coord (bytes.take 16) 0) (coord (bytes.take 16) 1)
        (coord (bytes.take 16) 2) (coord (bytes.take 16) 3)
      have hdata : (sys_read w cl.fd 16 e.inbound).2.1 = bytes.take 16 := by
        rw [hb, sys_read_full w cl.fd bytes hfd hlen]
      have hrp : readPathCalls w cl e = [Call.read cl.fd 16 16,
          Call.query (coord (bytes.take 16) 0) (coord (bytes.take 16) 1)
            (coord (bytes.take 16) 2) (coord (bytes.take 16) 3)] := by
        simp only [readPathCalls, hin, h16, if_true, hdata]
      have hpend : pendingAtWrite cfg w cl e = 4 * (cfg.world_get_cities_in_bounding_box
          (coord (bytes.take 16) 0) (coord (bytes.take 16) 1)
          (coord (bytes.take 16) 2) (coord (bytes.take 16) 3)).length := by
        simp only [pendingAtWrite, hin, h16, and_self, if_true, hdata]
      have hrc : readPathCloses w cl e = false := by
        simp [readPathCloses, h16]
      rw [hb, read_frame_eq cfg fe.ptr cl bytes w hc hfd hlen]
      generalize cfg.world_get_cities_in_bounding_box (coord (bytes.take 16) 0)
        (coord (bytes.take 16) 1) (coord (bytes.take 16) 2) (coord (bytes.take 16) 3) = res
        at hf hpend ⊢
      rw [store_ids_fits _ _ hf]
      have h160 : ¬ ((16 : Int) ≤ 0) := by decide
      simp only [h160, if_false]
      obtain ⟨w2, mid, h1, h2, h3, h4⟩ := net_poll_out_spec s e.ptr fe.ptr
        { cl with buf := res ++ cl.buf.drop res.length, buflen := 4 * res.length } fe e
        (((w.log (Call.read cl.fd 16 16)).log (Call.query (coord (bytes.take 16) 0)
            (coord (bytes.take 16) 1) (coord (bytes.take 16) 2)
            (coord (bytes.take 16) 3))).store fe.ptr (Obj.client
          { cl with buf := res ++ cl.buf.drop res.length, buflen := 4 * res.length }))
        (lookup_store_same _ fe.ptr _ _
          (show ((w.log (Call.read cl.fd 16 16)).log (Call.query (coord (bytes.take 16) 0)
            (coord (bytes.take 16) 1) (coord (bytes.take 16) 2)
            (coord (bytes.take 16) 3))).lookup fe.ptr = some (Obj.client cl) from hc))
        (by rw [lookup_store_other _ _ _ _ hne]; exact hfe) hup
      refine ⟨w2, [Call.read cl.fd 16 16, Call.query (coord (bytes.take 16) 0)
        (coord (bytes.take 16) 1) (coord (bytes.take 16) 2) (coord (bytes.take 16) 3)] ++ mid,
        h1, ?_, ?_, ?_, ?_⟩
      · simpa [World.store, World.log, List.append_assoc] using h2
      · intro x hx
        rcases List.mem_append.mp hx with h | h
        · simp only [List.mem_cons, List.mem_singleton, List.not_mem_nil, or_false] at h
          rcases h with h | h <;> rw [h] <;> rfl
        · obtain ⟨n, r, hx2⟩ := h3 x h
          rw [hx2]; rfl
      · simp only [hin, iff_true]
        exact ⟨16, 16, by simp⟩
      · rw [hrp, h4]
        simp only [writePathCalls, hrc, hpend, true_and]
        rfl
    · -- anything else than a full frame closes at once
      have hr := net_client_read_short cfg fe.ptr cl e.inbound w hc h16
      have hle : (if (sys_read w cl.fd 16 e.inbound).1 = 0 then (0 : Int) else -1) ≤ 0 := by
        split <;> decide
      rw [hr]
      simp only [hle, if_true]
      obtain ⟨w2, hw2, hcl⟩ := net_poll_close_spec s e.ptr fe.ptr cl fe
        (w.log (Call.read cl.fd 16 (sys_read w cl.fd 16 e.inbound).1)) hc hfe
      refine ⟨w2, [Call.read cl.fd 16 (sys_read w cl.fd 16 e.inbound).1], hw2, hcl, ?_, ?_, ?_⟩
      · intro x hx
        rw [List.mem_singleton.mp hx]; rfl
      · simp only [hin, iff_true]
        exact ⟨16, (sys_read w cl.fd 16 e.inbound).1, by simp⟩
      · have hrc : readPathCloses w cl e = true := by
          simp [readPathCloses, hin, h16]
        simp [readPathCalls, writePathCalls, hin, h16, hrc]
  · rw [if_neg hin]
    obtain ⟨w2, mid, h1, h2, h3, h4⟩ := net_poll_out_spec s e.ptr fe.ptr cl fe e w hc hfe hup
    refine ⟨w2, mid, h1, h2, ?_, ?_, ?_⟩
    · intro x hx
      obtain ⟨n, r, hx2⟩ := h3 x hx
      rw [hx2]; rfl
    · constructor
      · rintro ⟨n, r, hm⟩
        obtain ⟨n2, r2, hx2⟩ := h3 _ hm
        cases hx2
      · intro h; exact absurd h hin
    · have hrc : readPathCloses w cl e = false := by
        simp [readPathCloses, hin]
      have hpend : pendingAtWrite cfg w cl e = cl.buflen := by
        simp [pendingAtWrite, hin]
      rw [h4]
      simp only [readPathCalls, hin, Bool.false_eq_true, if_false, List.nil_append,
        writePathCalls, hrc, hpend, true_and]

/-- Witness of C6 (amended): readable, writable and hung up, with a full
request pending. The read, the query and the write of the four staged bytes
precede the close. -/
theorem hangup_closes_after_io_witness :
    ∃ w2 mid, net_poll_event demoCfg demoSrv
        (demoReady 5 21 (Inbound.data (List.replicate 16 0)) (some 4)) demoConn = .ok w2 ∧
      ClosedAfter demoSrv 5 4 5 (demoConn.trace ++ mid) w2 ∧
      (∀ x ∈ mid, x.onDataPath = true) ∧
      ((∃ n r, Call.read 5 n r ∈ mid) ↔
        testFlag (demoReady 5 21 (Inbound.data (List.replicate 16 0)) (some 4)).events EPOLLIN
          = true) ∧
      mid = [Call.read 5 16 16,
        Call.query [0, 0, 0, 0] [0, 0, 0, 0] [0, 0, 0, 0] [0, 0, 0, 0], Call.write 5 4 4] :=
  hangup_closes_after_io demoCfg demoSrv
    (demoReady 5 21 (Inbound.data (List.replicate 16 0)) (some 4)) demoConn
    ⟨4, net_file_event_type_client, 0⟩ ⟨5, 1, 2, [0, 0], 0⟩ (by decide) (by decide) (by decide)
    (by decide) (fun _ _ _ _ => Nat.le_succ 1)

/-- C6, counterexample: on an entry whose mask is readable, writable and
hangup, the read path (with the spatial query) and the write path both run
before the connection is closed. -/
theorem hangup_does_not_supersede :
    (net_poll_event demoCfg demoSrv
        (demoReady 5 21 (Inbound.data (List.replicate 16 0)) (some 4)) demoConn).toOption.map
        World.trace =
      some [Call.read 5 16 16, Call.query [0, 0, 0, 0] [0, 0, 0, 0] [0, 0, 0, 0] [0, 0, 0, 0],
        Call.write 5 4 4, Call.epoll_ctl_del 4 5 0, Call.close 5, Call.free 4, Call.free 5] := by
  decide

/-! ## Preservation of the registration invariant -/

theorem length_filter_ne {α β : Type} [DecidableEq β] (f : α → β) (l : List α) (b : β)
    (hn : (l.map f).Nodup) (hb : b ∈ l.map f) :
    (l.filter (fun a => decide (f a ≠ b))).length + 1 = l.length := by
  induction l with
  | nil => simp at hb
  | cons a t ih =>
    simp only [List.map_cons, List.nodup_cons] at hn
    by_cases h : f a = b
    · have hnot : b ∉ t.map f := by rw [← h]; exact hn.1
      have hall : t.filter (fun a => decide (f a ≠ b)) = t := by
        rw [List.filter_eq_self]
        intro x hx
        simp only [ne_eq, decide_not, Bool.not_eq_true', decide_eq_false_iff_not]
        intro hx2
        exact hnot (List.mem_map.mpr ⟨x, hx, hx2⟩)
      rw [List.filter_cons]
      have hd : decide (f a ≠ b) = false := by simpa using h
      rw [hd, hall]
      simp
    · have hb2 : b ∈ t.map f := by
        simp only [List.map_cons, List.mem_cons] at hb
        rcases hb with hb | hb
        · exact absurd hb.symm h
        · exact hb
      have := ih hn.2 hb2
      rw [List.filter_cons]
      have hd : decide (f a ≠ b) = true := by simpa using h
      rw [hd]
      simp only [if_true, List.length_cons]
      omega

theorem RegInv.same_ptr {sp : Nat} {s : net_server} {k : Kernel} {heap : List (Nat × Obj)}
    (inv : RegInv sp s k heap) {r1 r2 : Reg} (h1 : r1 ∈ k.regs) (h2 : r2 ∈ k.regs)
    (hp : r1.ptr = r2.ptr) : r1 = r2 := by
  apply List.inj_on_of_nodup_map inv.one_registration h1 h2
  obtain ⟨fe1, hl1, hc1⟩ := inv.binding r1 h1
  obtain ⟨fe2, hl2, hc2⟩ := inv.binding r2 h2
  rw [hp, hl2] at hl1
  have hfe : fe2 = fe1 := by
    simp only [Option.some.injEq, Obj.fevent.injEq] at hl1
    exact hl1
  subst hfe
  rcases hc1 with ⟨a1, b1, -⟩ | ⟨a1, b1, cl1, c1, d1⟩
  · rcases hc2 with ⟨a2, -, -⟩ | ⟨-, b2, -⟩
    · rw [a1, a2]
    · rw [b1] at b2; cases b2
  · rcases hc2 with ⟨-, b2, -⟩ | ⟨-, -, cl2, c2, d2⟩
    · rw [b1] at b2; cases b2
    · rw [c1] at c2
      simp only [Option.some.injEq, Obj.client.injEq] at c2
      rw [← d1, ← d2, c2]

/-- Replacing the content of a connection by one with the same descriptor
keeps the invariant. -/
theorem RegInv.touch {sp : Nat} {s : net_server} {k : Kernel} {heap : List (Nat × Obj)}
    (inv : RegInv sp s k heap) (c : Nat) (cl cl1 : net_client)
    (hc : hfind heap c = some (Obj.client cl)) (hfd : cl1.fd = cl.fd) :
    RegInv sp s k (heap.map (fun e => if e.1 == c then (c, Obj.client cl1) else e)) := by
  have hother : ∀ p o, hfind heap p = some o → (∀ x, o ≠ Obj.client x) →
      hfind (heap.map (fun e => if e.1 == c then (c, Obj.client cl1) else e)) p = some o := by
    intro p o hp hno
    rw [hfind_store]
    have : p ≠ c := by
      intro h
      rw [h, hc] at hp
      simp only [Option.some.injEq] at hp
      exact hno cl hp.symm
    rw [if_neg this]
    exact hp
  refine { inv with server := ?_, binding := ?_, keys_nodup := ?_, no_leak := ?_ }
  · exact hother sp _ inv.server (fun x h => by cases h)
  · intro r hr
    obtain ⟨fe, hl, hcase⟩ := inv.binding r hr
    refine ⟨fe, hother _ _ hl (fun x h => by cases h), ?_⟩
    rcases hcase with h | ⟨a, b, cl0, c0, d0⟩
    · exact Or.inl h
    · refine Or.inr ⟨a, b, ?_⟩
      rw [hfind_store]
      by_cases hp : fe.ptr = c
      · rw [if_pos hp, c0]
        refine ⟨cl1, rfl, ?_⟩
        rw [hp, hc] at c0
        simp only [Option.some.injEq, Obj.client.injEq] at c0
        rw [hfd, c0, d0]
      · rw [if_neg hp]
        exact ⟨cl0, c0, d0⟩
  · rw [keys_store]; exact inv.keys_nodup
  · rw [List.length_map]; exact inv.no_leak

theorem hfind_filter2 (heap : List (Nat × Obj)) (a b p : Nat) :
    hfind ((heap.filter (fun e => e.1 != a)).filter (fun e => e.1 != b)) p =
      if p = b ∨ p = a then none else hfind heap p := by
  rw [hfind_filter, hfind_filter]
  by_cases h1 : p = b
  · simp [h1]
  · by_cases h2 : p = a
    · simp [h2]
    · simp [h1, h2]

theorem keys_filter_nodup (heap : List (Nat × Obj)) (a : Nat)
    (h : (heap.map Prod.fst).Nodup) : ((heap.filter (fun e => e.1 != a)).map Prod.fst).Nodup :=
  h.sublist ((List.filter_sublist heap).map Prod.fst)

theorem heap_length_filter (heap : List (Nat × Obj)) (a : Nat)
    (hn : (heap.map Prod.fst).Nodup) (ha : a ∈ heap.map Prod.fst) :
    (heap.filter (fun e => e.1 != a)).length + 1 = heap.length := by
  have := length_filter_ne Prod.fst heap a hn ha
  have hcongr : heap.filter (fun e => e.1 != a) = heap.filter (fun e => decide (e.1 ≠ a)) := by
    apply List.filter_congr
    intro x _
    by_cases hx : x.1 = a <;> simp [hx]
  rw [hcongr]
  exact this

/-- The registrations left by `net_client_close` on the descriptor `f`. -/
theorem regs_after_close (s : net_server) (k : Kernel) (f : Int)
    (hsame : ∀ r ∈ k.regs, r.epfd = s.epfd) (hne : s.epfd ≠ f) :
    (({ k with regs := k.regs.filter (fun r => ¬ (r.epfd = s.epfd ∧ r.fd = f)) } :
        Kernel).close f).regs = k.regs.filter (fun r => decide (r.fd ≠ f)) := by
  simp only [Kernel.close, List.filter_filter]
  apply List.filter_congr
  intro r hr
  have h1 := hsame r hr
  by_cases h2 : r.fd = f
  · simp [h1, h2]
  · simp [h1, h2, hne]

/-- Closing a connection through its registration keeps the invariant, and
keeps every other registration. -/
theorem RegInv.closed {sp : Nat} {s : net_server} {k : Kernel} {heap : List (Nat × Obj)}
    (inv : RegInv sp s k heap) (r0 : Reg) (hr0 : r0 ∈ k.regs) (fe : net_file_event)
    (hl : hfind heap r0.ptr = some (Obj.fevent fe))
    (hty : fe.type = net_file_event_type_client) (cl : net_client)
    (hc : hfind heap fe.ptr = some (Obj.client cl)) :
    RegInv sp s
      (({ k with regs := k.regs.filter (fun r => ¬ (r.epfd = s.epfd ∧ r.fd = cl.fd)) } :
        Kernel).close cl.fd)
      ((heap.filter (fun e => e.1 != fe.ptr)).filter (fun e => e.1 != r0.ptr)) ∧
    ∀ r ∈ k.regs, r.ptr ≠ r0.ptr →
      r ∈ (({ k with regs := k.regs.filter (fun r => ¬ (r.epfd = s.epfd ∧ r.fd = cl.fd)) } :
        Kernel).close cl.fd).regs := by
  -- the registration of the connection
  have hbind : r0.fd ≠ s.fd ∧ cl.fd = r0.fd := by
    obtain ⟨fe0, h0, hcase⟩ := inv.binding r0 hr0
    rw [hl] at h0
    simp only [Option.some.injEq, Obj.fevent.injEq] at h0
    subst h0
    rcases hcase with ⟨-, b, -⟩ | ⟨a, -, cl0, c0, d0⟩
    · rw [hty] at b; cases b
    · rw [hc] at c0
      simp only [Option.some.injEq, Obj.client.injEq] at c0
      subst c0
      exact ⟨a, d0⟩
  obtain ⟨hnl, hfd⟩ := hbind
  have hfsock : cl.fd ∈ k.socks := by
    rw [inv.sockets_registered, hfd]
    exact List.mem_map.mpr ⟨r0, hr0, rfl⟩
  have hepne : s.epfd ≠ cl.fd := fun h => inv.instance_no_socket (h ▸ hfsock)
  have hregs := regs_after_close s k cl.fd inv.same_instance hepne
  have hkeep : ∀ r ∈ k.regs, r.ptr ≠ r0.ptr → r.fd ≠ cl.fd := by
    intro r hr hp hf
    apply hp
    have : r = r0 := List.inj_on_of_nodup_map inv.one_registration hr hr0 (by rw [hf, hfd])
    rw [this]
  have hptr : ∀ r ∈ k.regs, r.fd ≠ cl.fd → r.ptr ≠ r0.ptr := by
    intro r hr hf hp
    apply hf
    rw [inv.same_ptr hr hr0 hp, hfd]
  constructor
  · refine
      { server := ?_, listener := ?_, instance_open := ?_, instance_nonneg := inv.instance_nonneg,
        instance_no_socket := ?_, zero_open := ?_, socks_nonneg := ?_, socks_fresh := ?_,
        socks_nodup := ?_, same_instance := ?_, one_registration := ?_,
        sockets_registered := ?_, binding := ?_, keys_nodup := ?_, no_leak := ?_ }
    · rw [hfind_filter2]
      have h1 : sp ≠ r0.ptr := by
        intro h; have := inv.server; rw [h, hl] at this; cases this
      have h2 : sp ≠ fe.ptr := by
        intro h; have := inv.server; rw [h, hc] at this; cases this
      simp only [h1, h2, or_self, if_false]
      exact inv.server
    · simp only [Kernel.close, List.mem_filter, decide_eq_true_eq]
      exact ⟨inv.listener, fun h => hnl (by rw [← hfd, ← h])⟩
    · simp only [Kernel.close, List.mem_filter, decide_eq_true_eq]
      exact ⟨inv.instance_open, hepne⟩
    · simp only [Kernel.close, List.mem_filter, decide_eq_true_eq, not_and]
      intro h; exact absurd h inv.instance_no_socket
    · rcases inv.zero_open with h | h
      · left
        simp only [Kernel.close, List.mem_filter, decide_eq_true_eq]
        exact ⟨h, fun h0 => inv.socks_fresh _ hfsock (h0 ▸ h)⟩
      · exact Or.inr h
    · intro fd hfd2
      simp only [Kernel.close, List.mem_filter] at hfd2
      exact inv.socks_nonneg fd hfd2.1
    · intro fd hfd2
      simp only [Kernel.close, List.mem_filter] at hfd2 ⊢
      intro h
      exact inv.socks_fresh fd hfd2.1 h.1
    · exact inv.socks_nodup.filter _
    · rw [hregs]
      intro r hr
      exact inv.same_instance r (List.mem_filter.mp hr).1
    · rw [hregs]
      exact inv.one_registration.sublist ((List.filter_sublist _).map Reg.fd)
    · rw [hregs]
      intro fd
      simp only [Kernel.close, List.mem_filter, decide_eq_true_eq, List.mem_map]
      constructor
      · rintro ⟨h1, h2⟩
        obtain ⟨r, hr, hrf⟩ := List.mem_map.mp ((inv.sockets_registered fd).mp h1)
        exact ⟨r, ⟨hr, by rw [hrf]; exact h2⟩, hrf⟩
      · rintro ⟨r, ⟨hr, h2⟩, hrf⟩
        exact ⟨(inv.sockets_registered fd).mpr (List.mem_map.mpr ⟨r, hr, hrf⟩),
          by rw [← hrf]; exact h2⟩
    · rw [hregs]
      intro r hr
      simp only [List.mem_filter, decide_eq_true_eq] at hr
      obtain ⟨fer, hlr, hcase⟩ := inv.binding r hr.1
      have hp1 : r.ptr ≠ r0.ptr := hptr r hr.1 hr.2
      have hp2 : r.ptr ≠ fe.ptr := by
        intro h; rw [h, hc] at hlr; cases hlr
      refine ⟨fer, ?_, ?_⟩
      · rw [hfind_filter2]; simp only [hp1, hp2, or_self, if_false]; exact hlr
      · rcases hcase with h | ⟨a, b, clr, cr, dr⟩
        · exact Or.inl h
        · refine Or.inr ⟨a, b, clr, ?_, dr⟩
          have hq1 : fer.ptr ≠ r0.ptr := by
            intro h; rw [h, hl] at cr; cases cr
          have hq2 : fer.ptr ≠ fe.ptr := by
            intro h
            rw [h, hc] at cr
            simp only [Option.some.injEq, Obj.client.injEq] at cr
            exact hr.2 (by rw [← dr, ← cr])
          rw [hfind_filter2]; simp only [hq1, hq2, or_self, if_false]; exact cr
    · exact keys_filter_nodup _ r0.ptr (keys_filter_nodup _ fe.ptr inv.keys_nodup)
    · rw [hregs]
      have hne : r0.ptr ≠ fe.ptr := by
        intro h; rw [h, hc] at hl; cases hl
      have e1 := heap_length_filter heap fe.ptr inv.keys_nodup (hfind_key hc)
      have hmem : r0.ptr ∈ (heap.filter (fun e => e.1 != fe.ptr)).map Prod.fst := by
        apply hfind_key (o := Obj.fevent fe)
        rw [hfind_filter, if_neg hne]
        exact hl
      have e2 := heap_length_filter _ r0.ptr
        (keys_filter_nodup _ fe.ptr inv.keys_nodup) hmem
      have e3 := length_filter_ne Reg.fd k.regs cl.fd inv.one_registration
        (by rw [hfd]; exact List.mem_map.mpr ⟨r0, hr0, rfl⟩)
      have e4 := inv.no_leak
      omega
  · intro r hr hp
    rw [hregs]
    simp only [List.mem_filter, decide_eq_true_eq]
    exact ⟨hr, hkeep r hr hp⟩

theorem ConnAt.client {sp : Nat} {s : net_server} {r0 : Reg} {fe : net_file_event} {w : World}
    (h : ConnAt sp s r0 fe w) :
    ∃ cl, w.lookup fe.ptr = some (Obj.client cl) ∧ cl.fd = r0.fd := by
  obtain ⟨fe0, h0, hcase⟩ := h.inv.binding r0 h.reg
  rw [h.fev] at h0
  simp only [Option.some.injEq, Obj.fevent.injEq] at h0
  subst h0
  rcases hcase with ⟨-, b, -⟩ | ⟨-, -, cl0, c0, d0⟩
  · rw [h.ty] at b; cases b
  · exact ⟨cl0, c0, d0⟩

theorem ConnAt.log {sp : Nat} {s : net_server} {r0 : Reg} {fe : net_file_event} {w : World}
    (h : ConnAt sp s r0 fe w) (c : Call) : ConnAt sp s r0 fe (w.log c) :=
  ⟨h.inv, h.reg, h.fev, h.ty⟩

theorem ConnAt.store {sp : Nat} {s : net_server} {r0 : Reg} {fe : net_file_event} {w : World}
    (h : ConnAt sp s r0 fe w) (cl cl1 : net_client)
    (hc : w.lookup fe.ptr = some (Obj.client cl)) (hfd : cl1.fd = cl.fd) :
    ConnAt sp s r0 fe (w.store fe.ptr (Obj.client cl1)) := by
  refine ⟨h.inv.touch fe.ptr cl cl1 hc hfd, h.reg, ?_, h.ty⟩
  have hne : r0.ptr ≠ fe.ptr := by
    intro e
    have := h.fev
    rw [e] at this
    rw [lookup_def, this] at hc
    cases hc
  have := lookup_store_other w fe.ptr (Obj.client cl1) r0.ptr hne
  rw [lookup_def, lookup_def] at this
  rw [this]
  exact h.fev

theorem close_serviced {sp : Nat} {s : net_server} {r0 : Reg} {fe : net_file_event} {w : World}
    (h : ConnAt sp s r0 fe w) :
    Sound (Serviced sp s r0 w.k) (net_poll_close s r0.ptr fe.ptr w) := by
  obtain ⟨cl, hc, -⟩ := h.client
  have hne : r0.ptr ≠ fe.ptr := by
    intro e
    have := h.fev
    rw [e] at this
    rw [lookup_def, this] at hc
    cases hc
  rw [net_poll_close_ok s r0.ptr fe.ptr cl w hc (hfind_key h.fev) hne]
  exact h.inv.closed r0 h.reg fe h.fev h.ty cl hc

theorem hup_serviced {sp : Nat} {s : net_server} {r0 : Reg} {fe : net_file_event} {w : World}
    (h : ConnAt sp s r0 fe w) (e : Ready) :
    Sound (Serviced sp s r0 w.k) (net_poll_hup s r0.ptr fe.ptr e w) := by
  unfold net_poll_hup
  split
  · exact close_serviced h
  · exact ⟨h.inv, fun r hr _ => hr⟩

theorem out_serviced {sp : Nat} {s : net_server} {r0 : Reg} {fe : net_file_event} {w : World}
    (h : ConnAt sp s r0 fe w) (e : Ready) :
    Sound (Serviced sp s r0 w.k) (net_poll_out s r0.ptr fe.ptr e w) := by
  obtain ⟨cl, hc, -⟩ := h.client
  unfold net_poll_out
  split
  · unfold net_client_write
    rw [hc]
    by_cases hl : cl.buflen = 0
    · have h01 : ¬ ((0 : Int) = -1) := by decide
      simp only [hl, ne_eq, not_true_eq_false, if_false, h01]
      exact hup_serviced h e
    · simp only [ne_eq, hl, not_false_eq_true, if_true]
      by_cases hn : (sys_write w cl.fd cl.buflen e.wr).1 = -1
      · simp only [hn, if_true]
        exact close_serviced (h.log (Call.write cl.fd cl.buflen _))
      · simp only [hn, if_false]
        exact hup_serviced
          ((h.log (Call.write cl.fd cl.buflen _)).store cl { cl with buflen := 0 } hc rfl) e
  · exact hup_serviced h e

theorem in_serviced (cfg : Config) {sp : Nat} {s : net_server} {r0 : Reg} {fe : net_file_event}
    {w : World} (h : ConnAt sp s r0 fe w) (e : Ready) :
    Sound (Serviced sp s r0 w.k) (net_poll_in cfg s r0.ptr fe.ptr e w) := by
  obtain ⟨cl, hc, -⟩ := h.client
  unfold net_poll_in
  split
  · by_cases h16 : (sys_read w cl.fd 16 e.inbound).1 = 16
    · obtain ⟨bytes, hb, hfd, hlen⟩ := sys_read_full_inv w cl.fd e.inbound h16
      rw [hb, read_frame_eq cfg fe.ptr cl bytes w hc hfd hlen]
      cases hst : store_ids cl.buf 0 (cfg.world_get_cities_in_bounding_box
          (coord (bytes.take 16) 0) (coord (bytes.take 16) 1)
          (coord (bytes.take 16) 2) (coord (bytes.take 16) 3)) with
      | none => exact Or.inl rfl
      | some buf1 =>
        have h160 : ¬ ((16 : Int) ≤ 0) := by decide
        simp only [h160, if_false]
        exact out_serviced (((h.log (Call.read cl.fd 16 16)).log (Call.query
          (coord (bytes.take 16) 0) (coord (bytes.take 16) 1)
          (coord (bytes.take 16) 2) (coord (bytes.take 16) 3))).store cl
          { cl with buf := buf1, buflen := 4 * (cfg.world_get_cities_in_bounding_box
            (coord (bytes.take 16) 0) (coord (bytes.take 16) 1)
            (coord (bytes.take 16) 2) (coord (bytes.take 16) 3)).length } hc rfl) e
    · rw [net_client_read_short cfg fe.ptr cl e.inbound w hc h16]
      have hle : (if (sys_read w cl.fd 16 e.inbound).1 = 0 then (0 : Int) else -1) ≤ 0 := by
        split <;> decide
      simp only [hle, if_true]
      exact close_serviced (h.log _)
  · exact out_serviced h e

/-! ## `net_server_accept` -/

theorem store_append_fresh (heap : List (Nat × Obj)) (p : Nat) (o o1 : Obj)
    (h : p ∉ heap.map Prod.fst) :
    (heap ++ [(p, o)]).map (fun e => if e.1 == p then (p, o1) else e) = heap ++ [(p, o1)] := by
  rw [List.map_append]
  congr 1
  · conv_rhs => rw [← List.map_id heap]
    apply List.map_congr_left
    intro e he
    have : e.1 ≠ p := fun h2 => h (List.mem_map.mpr ⟨e, he, h2⟩)
    simp [this]
  · simp

theorem filter_append_fresh (heap : List (Nat × Obj)) (p : Nat) (o : Obj)
    (h : p ∉ heap.map Prod.fst) :
    (heap ++ [(p, o)]).filter (fun e => e.1 != p) = heap := by
  rw [List.filter_append]
  have h1 : heap.filter (fun e => e.1 != p) = heap := by
    rw [List.filter_eq_self]
    intro e he
    have : e.1 ≠ p := fun h2 => h (List.mem_map.mpr ⟨e, he, h2⟩)
    simp [this]
  rw [h1]
  simp

theorem filter_append_other (heap : List (Nat × Obj)) (p q : Nat) (o : Obj) (h : q ≠ p) :
    (heap ++ [(q, o)]).filter (fun e => e.1 != p) = heap.filter (fun e => e.1 != p) ++ [(q, o)] := by
  rw [List.filter_append]
  simp [h]

theorem close_fresh (k : Kernel) (fd : Int) (e : Int) (hfresh : fd ∉ k.openFds)
    (hregs : ∀ r ∈ k.regs, r.fd ≠ fd ∧ r.epfd ≠ fd) :
    ({ k with socks := k.socks ++ [fd],
              regs := k.regs.filter (fun r => ¬ (r.epfd = e ∧ r.fd = fd)) } : Kernel).close fd
      = k := by
  obtain ⟨other, socks, epolls, regs⟩ := k
  simp only [Kernel.openFds, List.mem_append, not_or] at hfresh
  simp only [Kernel.close, Kernel.mk.injEq, List.filter_append, List.filter_filter]
  have hf : ∀ l : List Int, fd ∉ l → l.filter (fun x => decide (x ≠ fd)) = l := by
    intro l hl
    rw [List.filter_eq_self]
    intro x hx
    simp only [ne_eq, decide_not, Bool.not_eq_true', decide_eq_false_iff_not]
    intro h; exact hl (h ▸ hx)
  refine ⟨hf _ hfresh.1.1, ?_, hf _ hfresh.2, ?_⟩
  · rw [hf _ hfresh.1.2]; simp
  · rw [List.filter_eq_self]
    intro r hr
    have := hregs r hr
    simp [this.1, this.2]

theorem close_fresh_plain (k : Kernel) (fd : Int) (hfresh : fd ∉ k.openFds)
    (hregs : ∀ r ∈ k.regs, r.fd ≠ fd ∧ r.epfd ≠ fd) :
    ({ k with socks := k.socks ++ [fd] } : Kernel).close fd = k := by
  have := close_fresh k fd 0 hfresh hregs
  have hr : k.regs.filter (fun r => ¬ (r.epfd = 0 ∧ r.fd = fd)) = k.regs := by
    rw [List.filter_eq_self]
    intro r hr
    have := hregs r hr
    simp [this.1]
  rw [hr] at this
  exact this

theorem RegInv.fresh_fd {sp : Nat} {s : net_server} {k : Kernel} {heap : List (Nat × Obj)}
    (inv : RegInv sp s k heap) :
    lowestFd k.openFds ∉ k.openFds ∧ 0 ≤ lowestFd k.openFds ∧ lowestFd k.openFds ≠ 0 ∧
      lowestFd k.openFds ≠ -1 ∧
      ∀ r ∈ k.regs, r.fd ≠ lowestFd k.openFds ∧ r.epfd ≠ lowestFd k.openFds := by
  obtain ⟨h1, h2⟩ := lowestFd_spec k.openFds
  have hz : (0 : Int) ∈ k.openFds := by
    simp only [Kernel.openFds, List.mem_append]
    rcases inv.zero_open with h | h
    · exact Or.inl (Or.inl h)
    · exact Or.inl (Or.inr (h ▸ inv.listener))
  refine ⟨h1, h2, fun h => h1 (h ▸ hz), by omega, ?_⟩
  intro r hr
  constructor
  · intro h
    apply h1
    rw [← h]
    simp only [Kernel.openFds, List.mem_append]
    exact Or.inl (Or.inr ((inv.sockets_registered r.fd).mpr (List.mem_map.mpr ⟨r, hr, rfl⟩)))
  · intro h
    apply h1
    rw [← h, inv.same_instance r hr]
    simp only [Kernel.openFds, List.mem_append]
    exact Or.inr inv.instance_open

/-- Closing `-1`, which `net_server_accept` does when `accept` fails, keeps
the invariant and the registrations. -/
theorem RegInv.close_minus_one {sp : Nat} {s : net_server} {k : Kernel}
    {heap : List (Nat × Obj)} (inv : RegInv sp s k heap) :
    RegInv sp s (k.close (-1)) heap ∧ (k.close (-1)).regs = k.regs := by
  have hf : ∀ l : List Int, (∀ x ∈ l, 0 ≤ x) → l.filter (fun x => decide (x ≠ -1)) = l := by
    intro l hl
    rw [List.filter_eq_self]
    intro x hx
    have := hl x hx
    simp only [ne_eq, decide_not, Bool.not_eq_true', decide_eq_false_iff_not]
    omega
  have hsocks : (k.close (-1)).socks = k.socks := hf _ inv.socks_nonneg
  have hregs : (k.close (-1)).regs = k.regs := by
    simp only [Kernel.close]
    rw [List.filter_eq_self]
    intro r hr
    have h1 := inv.socks_nonneg r.fd
      ((inv.sockets_registered r.fd).mpr (List.mem_map.mpr ⟨r, hr, rfl⟩))
    have h2 := inv.same_instance r hr
    have h3 := inv.instance_nonneg
    have h4 : r.fd ≠ -1 := by omega
    have h5 : r.epfd ≠ -1 := by omega
    simp [h4, h5]
  refine ⟨?_, hregs⟩
  refine
    { server := inv.server, listener := ?_, instance_open := ?_,
      instance_nonneg := inv.instance_nonneg, instance_no_socket := ?_, zero_open := ?_,
      socks_nonneg := ?_, socks_fresh := ?_, socks_nodup := ?_, same_instance := ?_,
      one_registration := ?_, sockets_registered := ?_, binding := ?_,
      keys_nodup := inv.keys_nodup, no_leak := ?_ }
  · rw [hsocks]; exact inv.listener
  · simp only [Kernel.close, List.mem_filter, decide_eq_true_eq]
    have := inv.instance_nonneg
    exact ⟨inv.instance_open, by omega⟩
  · rw [hsocks]; exact inv.instance_no_socket
  · rcases inv.zero_open with h | h
    · left
      simp only [Kernel.close, List.mem_filter, decide_eq_true_eq]
      exact ⟨h, by decide⟩
    · exact Or.inr h
  · rw [hsocks]; exact inv.socks_nonneg
  · rw [hsocks]
    intro fd hfd h
    simp only [Kernel.close, List.mem_filter] at h
    exact inv.socks_fresh fd hfd h.1
  · rw [hsocks]; exact inv.socks_nodup
  · rw [hregs]; exact inv.same_instance
  · rw [hregs]; exact inv.one_registration
  · rw [hregs, hsocks]; exact inv.sockets_registered
  · rw [hregs]; exact inv.binding
  · rw [hregs]; exact inv.no_leak

theorem hfind_append_some (heap : List (Nat × Obj)) (x : Nat × Obj) (p : Nat) (o : Obj)
    (h : hfind heap p = some o) : hfind (heap ++ [x]) p = some o := by
  obtain ⟨q, o1⟩ := x
  rw [hfind_append, h]

theorem hfind_append_fresh (heap : List (Nat × Obj)) (q : Nat) (o : Obj)
    (h : q ∉ heap.map Prod.fst) : hfind (heap ++ [(q, o)]) q = some o := by
  rw [hfind_append, hfind_eq_none.mpr h]
  simp

/-- A successful `net_server_accept` keeps the invariant. -/
theorem RegInv.accepted {sp : Nat} {s : net_server} {k : Kernel} {heap : List (Nat × Obj)}
    (inv : RegInv sp s k heap) (cfg : Config) (env : AcceptEnv) :
    RegInv sp s
      (acceptedKernel s k
        (freshAddr (heap ++ [(freshAddr heap, Obj.client (newClient cfg env (lowestFd k.openFds)))])))
      (acceptedHeap cfg env (lowestFd k.openFds) heap) := by
  obtain ⟨hfr, hnn, -, -, hregs⟩ := inv.fresh_fd
  have hp := (freshAddr_spec heap).1
  have hq := (freshAddr_spec
    (heap ++ [(freshAddr heap, Obj.client (newClient cfg env (lowestFd k.openFds)))])).1
  unfold acceptedKernel acceptedHeap
  generalize lowestFd k.openFds = fd at *
  generalize freshAddr heap = p at *
  generalize freshAddr (heap ++ [(p, Obj.client (newClient cfg env fd))]) = q at *
  simp only [Kernel.openFds, List.mem_append, not_or] at hfr
  have hfdreg : fd ∉ k.regs.map Reg.fd := by
    intro h
    obtain ⟨r, hr, hrf⟩ := List.mem_map.mp h
    exact (hregs r hr).1 hrf
  refine
    { server := ?_, listener := ?_, instance_open := inv.instance_open,
      instance_nonneg := inv.instance_nonneg, instance_no_socket := ?_,
      zero_open := inv.zero_open, socks_nonneg := ?_, socks_fresh := ?_, socks_nodup := ?_,
      same_instance := ?_, one_registration := ?_, sockets_registered := ?_, binding := ?_,
      keys_nodup := ?_, no_leak := ?_ }
  · exact hfind_append_some _ _ _ _ (hfind_append_some _ _ _ _ inv.server)
  · simp only [acceptedKernel, List.mem_append]
    exact Or.inl inv.listener
  · simp only [acceptedKernel, List.mem_append, List.mem_singleton, not_or]
    exact ⟨inv.instance_no_socket, fun h => hfr.2 (h ▸ inv.instance_open)⟩
  · intro x hx
    simp only [acceptedKernel, List.mem_append, List.mem_singleton] at hx
    rcases hx with hx | hx
    · exact inv.socks_nonneg x hx
    · rw [hx]; exact hnn
  · intro x hx
    simp only [acceptedKernel, List.mem_append, List.mem_singleton] at hx ⊢
    rcases hx with hx | hx
    · exact inv.socks_fresh x hx
    · rw [hx]; exact hfr.1.1
  · simp only [acceptedKernel]
    rw [List.nodup_append]
    refine ⟨inv.socks_nodup, List.nodup_singleton _, ?_⟩
    intro x hx hx2
    rw [List.mem_singleton.mp hx2] at hx
    exact hfr.1.2 hx
  · intro r hr
    simp only [acceptedKernel, List.mem_append, List.mem_singleton] at hr
    rcases hr with hr | hr
    · exact inv.same_instance r hr
    · rw [hr]
  · simp only [acceptedKernel, List.map_append, List.map_cons, List.map_nil]
    rw [List.nodup_append]
    refine ⟨inv.one_registration, List.nodup_singleton _, ?_⟩
    intro x hx hx2
    rw [List.mem_singleton.mp hx2] at hx
    exact hfdreg hx
  · intro x
    simp only [acceptedKernel, List.map_append, List.map_cons, List.map_nil, List.mem_append,
      List.mem_singleton]
    rw [inv.sockets_registered x]
  · intro r hr
    simp only [acceptedKernel, List.mem_append, List.mem_singleton] at hr
    rcases hr with hr | hr
    · obtain ⟨fe, hl, hcase⟩ := inv.binding r hr
      refine ⟨fe, hfind_append_some _ _ _ _ (hfind_append_some _ _ _ _ hl), ?_⟩
      rcases hcase with h | ⟨a, b, cl, c1, d1⟩
      · exact Or.inl h
      · exact Or.inr ⟨a, b, cl, hfind_append_some _ _ _ _ (hfind_append_some _ _ _ _ c1), d1⟩
    · rw [hr]
      refine ⟨⟨p, net_file_event_type_client, 0⟩, hfind_append_fresh _ _ _ hq, Or.inr ⟨?_, rfl, ?_⟩⟩
      · intro h
        have h2 : fd = s.fd := h
        exact hfr.1.2 (h2 ▸ inv.listener)
      · exact ⟨newClient cfg env fd, hfind_append_some _ _ _ _ (hfind_append_fresh _ _ _ hp), rfl⟩
  · simp only [acceptedHeap, List.map_append, List.map_cons, List.map_nil]
    rw [List.nodup_append]
    refine ⟨?_, List.nodup_singleton _, ?_⟩
    · rw [List.nodup_append]
      refine ⟨inv.keys_nodup, List.nodup_singleton _, ?_⟩
      intro x hx hx2
      rw [List.mem_singleton.mp hx2] at hx
      exact hp hx
    · intro x hx hx2
      rw [List.mem_singleton.mp hx2] at hx
      apply hq
      simpa using hx
  · have := inv.no_leak
    simp only [acceptedHeap, acceptedKernel, List.length_append, List.length_singleton]
    omega

theorem accept_err_none (s : net_server) (fd : Int) (w : World) (hfd : fd ≠ 0) :
    net_server_accept_err s fd 0 0 w = .ok (0, sys_close w fd) := by
  simp [net_server_accept_err, hfd]

theorem accept_err_client (s : net_server) (fd : Int) (p : Nat) (cl : net_client) (w : World)
    (hp : p ≠ 0) (hc : w.lookup p = some (Obj.client cl)) :
    ∃ w1, net_server_accept_err s fd p 0 w = .ok (0, w1) ∧
      w1.k = ({ w.k with regs := w.k.regs.filter (fun r => ¬ (r.epfd = s.epfd ∧ r.fd = cl.fd)) } :
            Kernel).close cl.fd ∧
      w1.heap = w.heap.filter (fun e => e.1 != p) := by
  refine ⟨World.mk
    (({ w.k with regs := w.k.regs.filter (fun r => ¬ (r.epfd = s.epfd ∧ r.fd = cl.fd)) } :
      Kernel).close cl.fd)
    (w.heap.filter (fun e => e.1 != p))
    (w.trace ++ [Call.epoll_ctl_del s.epfd cl.fd (delCode w s.epfd cl.fd),
      Call.close cl.fd, Call.free p]), ?_, rfl, rfl⟩
  simp only [net_server_accept_err, ne_eq, hp, not_false_eq_true, if_true, not_true_eq_false,
    if_false]
  rw [net_client_close_ok s p cl w hc]

theorem accept_err_both (s : net_server) (fd : Int) (p q : Nat) (cl : net_client) (w : World)
    (hp : p ≠ 0) (hq : q ≠ 0) (hc : w.lookup p = some (Obj.client cl))
    (hqk : q ∈ w.heap.map Prod.fst) (hne : q ≠ p) :
    net_server_accept_err s fd p q w = .ok (0, closedWorld s q p cl w) := by
  have := net_poll_close_ok s q p cl w hc hqk hne
  unfold net_poll_close at this
  simp only [net_server_accept_err, ne_eq, hp, not_false_eq_true, if_true, hq]
  cases h1 : net_client_close s p w with
  | error f => rw [h1] at this; cases this
  | ok w1 =>
    rw [h1] at this
    simp only at this ⊢
    rw [this]

theorem net_client_create_ok (cfg : Config) (fd : Int) (ip port : Nat) (jb : List Int)
    (jl : Nat) (w : World) :
    ∃ w1, net_client_create cfg fd ip port true jb jl w = (freshAddr w.heap, w1) ∧
      w1.k = w.k ∧
      w1.heap = w.heap ++ [(freshAddr w.heap, Obj.client ⟨fd, ip, port, junkBuf cfg.slots jb, jl⟩)]
      := by
  have hp := freshAddr_spec w.heap
  refine ⟨(net_client_create cfg fd ip port true jb jl w).2, ?_, ?_, ?_⟩
  · apply Prod.ext
    · simp [net_client_create, sys_malloc, hp.2]
    · rfl
  · simp [net_client_create, sys_malloc, hp.2, World.store]
  · simp only [net_client_create, sys_malloc, if_true, hp.2, if_false, World.store]
    exact store_append_fresh _ _ _ _ hp.1

theorem net_file_event_create_ok (ptr : Nat) (t : net_file_event_type_t) (w : World) :
    ∃ w1, net_file_event_create ptr t true w = (freshAddr w.heap, w1) ∧
      w1.k = w.k ∧
      w1.heap = w.heap ++ [(freshAddr w.heap, Obj.fevent ⟨ptr, t, 0⟩)] := by
  have hp := freshAddr_spec w.heap
  refine ⟨(net_file_event_create ptr t true w).2, ?_, ?_, ?_⟩
  · apply Prod.ext
    · simp [net_file_event_create, sys_malloc, hp.2]
    · rfl
  · simp [net_file_event_create, sys_malloc, hp.2, World.store]
  · simp only [net_file_event_create, sys_malloc, if_true, hp.2, if_false, World.store]
    exact store_append_fresh _ _ _ _ hp.1

theorem sys_accept_ok (w : World) (lfd : Int) (h : lfd ∈ w.k.socks) :
    ∃ w1, sys_accept w lfd true = (lowestFd w.k.openFds, w1) ∧
      w1.k = { w.k with socks := w.k.socks ++ [lowestFd w.k.openFds] } ∧ w1.heap = w.heap := by
  refine ⟨(sys_accept w lfd true).2, ?_, ?_, ?_⟩ <;> simp [sys_accept, h]

theorem sys_fcntl_eq (w : World) (fd : Int) (ok : Bool) (h : fd ∈ w.k.openFds) :
    ∃ w1, sys_fcntl w fd ok = (if ok then 0 else -1, w1) ∧ w1.k = w.k ∧ w1.heap = w.heap := by
  refine ⟨(sys_fcntl w fd ok).2, ?_, rfl, rfl⟩
  cases ok <;> simp [sys_fcntl, h]

theorem sys_epoll_ctl_add_ok (w : World) (epfd fd : Int) (events ptr : Nat)
    (h1 : epfd ∈ w.k.epolls) (h2 : fd ∈ w.k.openFds) (h3 : fd ≠ epfd)
    (h4 : ∀ r ∈ w.k.regs, ¬ (r.epfd = epfd ∧ r.fd = fd)) :
    ∃ w1, sys_epoll_ctl_add w epfd fd events ptr true = (0, w1) ∧
      w1.k = { w.k with regs := w.k.regs ++ [⟨epfd, fd, events, ptr⟩] } ∧ w1.heap = w.heap := by
  have hd : decide (∀ r ∈ w.k.regs, ¬ (r.epfd = epfd ∧ r.fd = fd)) = true := by
    simpa using h4
  refine ⟨(sys_epoll_ctl_add w epfd fd events ptr true).2, ?_, ?_, ?_⟩ <;>
    simp only [sys_epoll_ctl_add, h1, h2, h3, hd, decide_True, Bool.and_self, if_true, ne_eq,
      not_false_eq_true]

theorem sys_epoll_ctl_add_fail (w : World) (epfd fd : Int) (events ptr : Nat) :
    sys_epoll_ctl_add w epfd fd events ptr false =
      (-1, w.log (Call.epoll_ctl_add epfd fd events ptr (-1))) := by
  simp [sys_epoll_ctl_add]

/-- What `net_server_accept` returns from a state that satisfies the
invariant: either `NULL`, the heap being as before and the descriptor table
unchanged up to a `close(-1)`, or the new connection, registered. -/
theorem net_server_accept_outcome (cfg : Config) (env : AcceptEnv) {sp : Nat} {s : net_server}
    {w : World} (inv : RegInv sp s w.k w.heap) :
    ∃ c w1, net_server_accept cfg sp env w = .ok (c, w1) ∧
      ((c = 0 ∧ (w1.k = w.k ∨ w1.k = w.k.close (-1)) ∧ w1.heap = w.heap) ∨
       (c = freshAddr w.heap ∧
        w1.k = acceptedKernel s w.k (freshAddr (w.heap ++
          [(freshAddr w.heap, Obj.client (newClient cfg env (lowestFd w.k.openFds)))])) ∧
        w1.heap = acceptedHeap cfg env (lowestFd w.k.openFds) w.heap)) := by
  obtain ⟨hfr, hnn, hz, hm1, hregs⟩ := inv.fresh_fd
  have hs : w.lookup sp = some (Obj.server s) := inv.server
  unfold net_server_accept
  rw [hs]
  simp only
  cases hacc : env.accept_ok with
  | false =>
    have ha : sys_accept w s.fd false = (-1, w.log (Call.accept s.fd (-1))) := by
      simp [sys_accept]
    rw [ha]
    simp only [if_true]
    rw [accept_err_none _ _ _ (by decide)]
    exact ⟨0, _, rfl, Or.inl ⟨rfl, Or.inr rfl, rfl⟩⟩
  | true =>
    obtain ⟨w1, ha, hk1, hh1⟩ := sys_accept_ok w s.fd inv.listener
    rw [ha]
    simp only [hm1, if_false]
    have hopen1 : lowestFd w.k.openFds ∈ w1.k.openFds := by
      rw [hk1]; simp [Kernel.openFds]
    obtain ⟨w2, hf, hk2, hh2⟩ := sys_fcntl_eq w1 (lowestFd w.k.openFds) env.fcntl_ok hopen1
    rw [hf]
    have hclose : ∀ w3 : World, w3.k = w1.k → (sys_close w3 (lowestFd w.k.openFds)).k = w.k := by
      intro w3 h3
      simp only [sys_close, h3, hk1]
      exact close_fresh_plain w.k _ hfr hregs
    cases hfc : env.fcntl_ok with
    | false =>
      simp only [Bool.false_eq_true, if_false]
      have : ¬ ((-1 : Int) = 0) := by decide
      simp only [ne_eq, this, not_false_eq_true, if_true]
      rw [accept_err_none _ _ _ hz]
      exact ⟨0, _, rfl, Or.inl ⟨rfl, Or.inl (hclose w2 hk2), by simp [sys_close, hh2, hh1]⟩⟩
    | true =>
      simp only [if_true, ne_eq, not_true_eq_false, if_false]
      cases hcl : env.client_ok with
      | false =>
        have hc : net_client_create cfg (lowestFd w.k.openFds) env.ip env.port false env.junk_buf
            env.junk_buflen w2 = (0, w2.log (Call.malloc 0)) := by
          simp [net_client_create, sys_malloc]
        rw [hc]
        simp only [if_true]
        rw [accept_err_none _ _ _ hz]
        exact ⟨0, _, rfl, Or.inl ⟨rfl, Or.inl (hclose _ hk2), by simp [sys_close, World.log, hh2, hh1]⟩⟩
      | true =>
        obtain ⟨w3, hc, hk3, hh3⟩ := net_client_create_ok cfg (lowestFd w.k.openFds) env.ip
          env.port env.junk_buf env.junk_buflen w2
        rw [hc]
        have hp := freshAddr_spec w2.heap
        simp only [hp.2, if_false]
        have hheap : w2.heap = w.heap := by rw [hh2, hh1]
        have hk3w : w3.k = { w.k with socks := w.k.socks ++ [lowestFd w.k.openFds] } := by
          rw [hk3, hk2, hk1]
        have hlp : hfind w3.heap (freshAddr w2.heap) = some (Obj.client
            ⟨lowestFd w.k.openFds, env.ip, env.port, junkBuf cfg.slots env.junk_buf,
              env.junk_buflen⟩) := by
          rw [hh3]; exact hfind_append_fresh _ _ _ hp.1
        have hkclose : ∀ k3 : Kernel, k3 = w3.k →
            ({ k3 with regs := (k3.regs.filter
                (fun r => ¬ (r.epfd = s.epfd ∧ r.fd = lowestFd w.k.openFds))) } : Kernel).close
              (lowestFd w.k.openFds) = w.k := by
          intro k3 h3
          rw [h3, hk3w]
          exact close_fresh w.k _ s.epfd hfr hregs
        cases hfeok : env.fe_ok with
        | false =>
          have hfe : net_file_event_create (freshAddr w2.heap) net_file_event_type_client false
              w3 = (0, w3.log (Call.malloc 0)) := by
            simp [net_file_event_create, sys_malloc]
          rw [hfe]
          simp only [if_true]
          obtain ⟨w5, he, hk5, hh5⟩ := accept_err_client s (lowestFd w.k.openFds)
            (freshAddr w2.heap) _ (w3.log (Call.malloc 0)) hp.2 hlp
          rw [he]
          refine ⟨0, w5, rfl, Or.inl ⟨rfl, Or.inl ?_, ?_⟩⟩
          · rw [hk5]; exact hkclose _ rfl
          · rw [hh5]
            show w3.heap.filter _ = w.heap
            rw [hh3, filter_append_fresh _ _ _ hp.1, hheap]
        | true =>
          obtain ⟨w4, hfe, hk4, hh4⟩ := net_file_event_create_ok (freshAddr w2.heap)
            net_file_event_type_client w3
          rw [hfe]
          have hq := freshAddr_spec w3.heap
          simp only [hq.2, if_false]
          have hqp : freshAddr w3.heap ≠ freshAddr w2.heap := by
            intro h
            apply hq.1
            rw [h]
            exact hfind_key hlp
          have hlp4 : hfind w4.heap (freshAddr w2.heap) = some (Obj.client
              ⟨lowestFd w.k.openFds, env.ip, env.port, junkBuf cfg.slots env.junk_buf,
                env.junk_buflen⟩) := by
            rw [hh4]; exact hfind_append_some _ _ _ _ hlp
          cases hctl : env.ctl_ok with
          | false =>
            rw [sys_epoll_ctl_add_fail]
            have : ¬ ((-1 : Int) = 0) := by decide
            simp only [ne_eq, this, not_false_eq_true, if_true]
            rw [accept_err_both s _ (freshAddr w2.heap) (freshAddr w3.heap) _
              (w4.log (Call.epoll_ctl_add s.epfd (lowestFd w.k.openFds) (EPOLLIN ||| EPOLLOUT)
                (freshAddr w3.heap) (-1))) hp.2 hq.2 hlp4
              (by
                show freshAddr w3.heap ∈ w4.heap.map Prod.fst
                rw [hh4]; simp) hqp]
            refine ⟨0, _, rfl, Or.inl ⟨rfl, Or.inl ?_, ?_⟩⟩
            · show ({ w4.k with regs := _ } : Kernel).close _ = w.k
              exact hkclose _ hk4
            · show (w4.heap.filter _).filter _ = w.heap
              have hq2 : freshAddr w3.heap ∉ w2.heap.map Prod.fst := by
                intro h
                apply hq.1
                have hm : ∀ x, x ∈ w2.heap.map Prod.fst → x ∈ w3.heap.map Prod.fst := by
                  intro x hx
                  rw [hh3]
                  simp only [List.map_append, List.mem_append]
                  exact Or.inl hx
                exact hm _ h
              generalize freshAddr w3.heap = q at *
              rw [hh4, filter_append_other _ _ _ _ hqp, hh3, filter_append_fresh _ _ _ hp.1,
                filter_append_fresh _ _ _ hq2, hheap]
          | true =>
            have hno : ∀ r ∈ w4.k.regs, ¬ (r.epfd = s.epfd ∧ r.fd = lowestFd w.k.openFds) := by
              intro r hr h
              rw [hk4, hk3w] at hr
              exact (hregs r hr).1 h.2
            obtain ⟨w5, hadd, hk5, hh5⟩ := sys_epoll_ctl_add_ok w4 s.epfd (lowestFd w.k.openFds)
              (EPOLLIN ||| EPOLLOUT) (freshAddr w3.heap)
              (by rw [hk4, hk3w]; exact inv.instance_open)
              (by rw [hk4, hk3w]; simp [Kernel.openFds])
              (by
                intro h
                apply hfr
                rw [h]
                simp only [Kernel.openFds, List.mem_append]
                exact Or.inr inv.instance_open) hno
            rw [hadd]
            simp only [ne_eq, not_true_eq_false, if_false]
            refine ⟨_, w5, rfl, Or.inr ⟨by rw [hheap], ?_, ?_⟩⟩
            · rw [hk5, hk4, hk3w, hh3, hheap]
              rfl
            · rw [hh5, hh4, hh3, hheap]
              rfl

/-! ## One ready entry, one cycle -/

theorem RegInv.transfer {sp : Nat} {s : net_server} {k k1 : Kernel}
    {heap heap1 : List (Nat × Obj)} (inv : RegInv sp s k heap) (hk : k1 = k)
    (hh : heap1 = heap) : RegInv sp s k1 heap1 := by
  subst hk; subst hh; exact inv

theorem event_serviced (cfg : Config) {sp : Nat} {s : net_server} {w : World}
    (inv : RegInv sp s w.k w.heap) (e : Ready) (r0 : Reg) (hr0 : r0 ∈ w.k.regs)
    (hp : r0.ptr = e.ptr) :
    Sound (Serviced sp s r0 w.k) (net_poll_event cfg s e w) := by
  obtain ⟨fe, hl, hcase⟩ := inv.binding r0 hr0
  unfold net_poll_event
  have hl2 : w.lookup e.ptr = some (Obj.fevent fe) := by rw [← hp]; exact hl
  rw [hl2]
  simp only
  rcases hcase with ⟨-, hty, hptr⟩ | ⟨-, hty, -⟩
  · have h1 : ¬ (net_file_event_type_server = net_file_event_type_client) := by decide
    simp only [hty, h1, if_false, true_and]
    by_cases hin : testFlag e.events EPOLLIN = true
    · rw [if_pos hin, hptr]
      obtain ⟨c, w1, hacc, hres⟩ := net_server_accept_outcome cfg e.acc inv
      rw [hacc]
      simp only
      rcases hres with ⟨-, hk | hk, hh⟩ | ⟨-, hk, hh⟩
      · exact ⟨inv.transfer hk hh, fun r hr _ => by rw [hk]; exact hr⟩
      · exact ⟨inv.close_minus_one.1.transfer hk hh,
          fun r hr _ => by rw [hk, inv.close_minus_one.2]; exact hr⟩
      · refine ⟨(inv.accepted cfg e.acc).transfer hk hh, fun r hr _ => ?_⟩
        rw [hk]
        simp only [acceptedKernel, List.mem_append]
        exact Or.inl hr
    · rw [if_neg hin]
      exact ⟨inv, fun r hr _ => hr⟩
  · simp only [hty, if_true]
    rw [← hp]
    exact in_serviced cfg ⟨inv, hr0, hl, hty⟩ e

theorem loop_sound (cfg : Config) {sp : Nat} {s : net_server} :
    ∀ (batch : List Ready) (w : World), RegInv sp s w.k w.heap → OnePerDescriptor w batch →
      Sound (fun w1 => RegInv sp s w1.k w1.heap) (net_poll_loop cfg s batch w) := by
  intro batch
  induction batch with
  | nil =>
    intro w inv _
    exact inv
  | cons e rest ih =>
    intro w inv hb
    obtain ⟨rs, hin, hnd, hmap⟩ := hb
    cases rs with
    | nil => simp at hmap
    | cons r0 rs1 =>
      simp only [List.map_cons, List.cons.injEq] at hmap
      simp only [List.map_cons, List.nodup_cons] at hnd
      have hr0 : r0 ∈ w.k.regs := hin r0 (List.mem_cons_self _ _)
      have hev := event_serviced cfg inv e r0 hr0 hmap.1.symm
      unfold net_poll_loop
      cases hres : net_poll_event cfg s e w with
      | error f =>
        rw [hres] at hev
        exact hev
      | ok w1 =>
        rw [hres] at hev
        simp only
        obtain ⟨inv1, hkeep⟩ := hev
        apply ih w1 inv1
        refine ⟨rs1, ?_, hnd.2, hmap.2⟩
        intro r hr
        have hrw : r ∈ w.k.regs := hin r (List.mem_cons_of_mem _ hr)
        apply hkeep r hrw
        intro hpp
        have : r = r0 := inv.same_ptr hrw hr0 hpp
        apply hnd.1
        rw [← this]
        exact List.mem_map.mpr ⟨r, hr, rfl⟩

theorem net_poll_sound (cfg : Config) {sp : Nat} {s : net_server} (w : World)
    (inv : RegInv sp s w.k w.heap) (wait : WaitResult Ready) (hw : WaitOk w wait) :
    Sound (fun r => RegInv sp s r.2.k r.2.heap) (net_poll cfg sp wait w) := by
  unfold net_poll
  have hs : w.lookup sp = some (Obj.server s) := inv.server
  rw [hs]
  simp only [sys_epoll_wait, inv.instance_open, if_true]
  cases wait with
  | ready batch =>
    simp only
    obtain ⟨rs, hin, hnd, hmap⟩ := hw
    have hb : OnePerDescriptor
        (w.log (Call.epoll_wait s.epfd (Int.ofNat (batch.take s.max_events).length)))
        (batch.take s.max_events) := by
      refine ⟨rs.take s.max_events, fun r hr => hin r (List.mem_of_mem_take hr), ?_, ?_⟩
      · rw [List.map_take]
        exact hnd.sublist (List.take_sublist _ _)
      · rw [List.map_take, List.map_take, hmap]
    have := loop_sound cfg (batch.take s.max_events)
      (w.log (Call.epoll_wait s.epfd (Int.ofNat (batch.take s.max_events).length))) inv hb
    cases hres : net_poll_loop cfg s (batch.take s.max_events)
      (w.log (Call.epoll_wait s.epfd (Int.ofNat (batch.take s.max_events).length))) with
    | error f => rw [hres] at this; exact this
    | ok w2 => rw [hres] at this; exact this
  | interrupted => exact inv
  | failed => exact Or.inr rfl

/-! ## `net_server_start` -/

theorem freshAddr_nil : freshAddr [] = 1 := rfl

theorem freshAddr_one (o : Obj) : freshAddr [(1, o)] = 2 := rfl

theorem freshAddr_two (o1 o2 : Obj) : freshAddr [(1, o1), (2, o2)] = 3 := rfl

theorem net_server_create_outcome (cfg : Config) (env : StartEnv) (w : World)
    (hh : w.heap = []) :
    (∃ w1, net_server_create cfg env w = .ok (0, w1) ∧ w1.heap = []) ∨
    (∃ w1, net_server_create cfg env w = .ok (1, w1) ∧ w1.k = w.k ∧
      w1.heap = [(1, Obj.server ⟨env.junk_fd, env.junk_epfd, 2, cfg.NET_MAX_EVENTS⟩),
        (2, Obj.batch cfg.NET_MAX_EVENTS)]) := by
  unfold net_server_create
  cases h1 : env.server_ok with
  | false =>
    left
    exact ⟨w.log (Call.malloc 0), by simp [sys_malloc], hh⟩
  | true =>
    have e1 : sys_malloc w true (Obj.server ⟨env.junk_fd, env.junk_epfd, 0, 0⟩) =
        (1, { w with heap := [(1, Obj.server ⟨env.junk_fd, env.junk_epfd, 0, 0⟩)],
                     trace := w.trace ++ [Call.malloc 1] }) := by
      simp [sys_malloc, hh, freshAddr_nil]
    simp only [e1]
    have h10 : ¬ ((1 : Nat) = 0) := by decide
    simp only [h10, if_false]
    cases h2 : env.events_ok with
    | false =>
      left
      exact ⟨World.mk w.k [] (w.trace ++ [Call.malloc 1, Call.malloc 0, Call.free 1]),
        by simp [sys_malloc, sys_free, World.log], rfl⟩
    | true =>
      right
      exact ⟨World.mk w.k [(1, Obj.server ⟨env.junk_fd, env.junk_epfd, 2, cfg.NET_MAX_EVENTS⟩),
          (2, Obj.batch cfg.NET_MAX_EVENTS)] (w.trace ++ [Call.malloc 1, Call.malloc 2]),
        by simp [sys_malloc, freshAddr_one, World.store], rfl, rfl⟩

theorem net_server_start_err_null (w : World) : net_server_start_err 0 0 w = .ok (0, w) := by
  simp [net_server_start_err]

theorem heap_if (c : Prop) [Decidable c] (a b : World) (h : a.heap = b.heap) :
    (if c then a else b).heap = b.heap := by
  split
  · exact h
  · rfl

theorem net_server_start_err_booting (w : World) (s1 : net_server) (b : Obj)
    (hh : w.heap = [(1, Obj.server s1), (2, b)]) (he : s1.events = 2) :
    ∃ w1, net_server_start_err 1 0 w = .ok (0, w1) := by
  have hl : w.lookup 1 = some (Obj.server s1) := by simp [World.lookup, hh]
  have h10 : ¬ ((1 : Nat) = 0) := by decide
  simp only [net_server_start_err, net_server_destroy, ne_eq, h10, not_false_eq_true, if_true,
    if_false, hl, he, not_true_eq_false]
  rw [sys_free_ok w 2 (by simp [hh])]
  simp only
  rw [sys_free_ok _ 1 (by
    rw [heap_if _ _ _ (by simp [sys_close, heap_if])]
    simp [heap_if, sys_close, hh])]
  exact ⟨_, rfl⟩

theorem net_server_start_err_registered (w : World) (s1 : net_server) (b c : Obj)
    (hh : w.heap = [(1, Obj.server s1), (2, b), (3, c)]) (he : s1.events = 2) :
    ∃ w1, net_server_start_err 1 3 w = .ok (0, w1) := by
  have hl : w.lookup 1 = some (Obj.server s1) := by simp [World.lookup, hh]
  have h10 : ¬ ((1 : Nat) = 0) := by decide
  have h30 : ¬ ((3 : Nat) = 0) := by decide
  simp only [net_server_start_err, net_server_destroy, ne_eq, h10, not_false_eq_true, if_true,
    if_false, hl, he, not_true_eq_false, h30, net_file_event_destroy]
  rw [sys_free_ok w 2 (by simp [hh])]
  simp only
  rw [sys_free_ok _ 1 (by
    rw [heap_if _ _ _ (by simp [sys_close, heap_if])]
    simp [heap_if, sys_close, hh])]
  simp only
  rw [sys_free_ok _ 3 (by
    simp only
    rw [heap_if _ _ _ (by simp [sys_close, heap_if])]
    simp [heap_if, sys_close, hh])]
  exact ⟨_, rfl⟩

theorem sys_socket_ok (w : World) :
    ∃ w1, sys_socket w true = (lowestFd w.k.openFds, w1) ∧
      w1.k = { w.k with socks := w.k.socks ++ [lowestFd w.k.openFds] } ∧ w1.heap = w.heap := by
  refine ⟨(sys_socket w true).2, ?_, ?_, ?_⟩ <;> simp [sys_socket]

theorem sys_epoll_create_ok (w : World) :
    ∃ w1, sys_epoll_create w true = (lowestFd w.k.openFds, w1) ∧
      w1.k = { w.k with epolls := w.k.epolls ++ [lowestFd w.k.openFds] } ∧ w1.heap = w.heap := by
  refine ⟨(sys_epoll_create w true).2, ?_, ?_, ?_⟩ <;> simp [sys_epoll_create]

theorem sys_bind_eq (w : World) (fd : Int) (port : Nat) (ok : Bool) (h : fd ∈ w.k.socks) :
    ∃ w1, sys_bind w fd port ok = (if ok then 0 else -1, w1) ∧ w1.k = w.k ∧ w1.heap = w.heap := by
  refine ⟨(sys_bind w fd port ok).2, ?_, rfl, rfl⟩
  cases ok <;> simp [sys_bind, h]

theorem sys_listen_eq (w : World) (fd : Int) (n : Nat) (ok : Bool) (h : fd ∈ w.k.socks) :
    ∃ w1, sys_listen w fd n ok = (if ok then 0 else -1, w1) ∧ w1.k = w.k ∧ w1.heap = w.heap := by
  refine ⟨(sys_listen w fd n ok).2, ?_, rfl, rfl⟩
  cases ok <;> simp [sys_listen, h]

theorem set_server_fd_eq (w : World) (s1 : net_server) (b : Obj) (fd : Int)
    (hh : w.heap = [(1, Obj.server s1), (2, b)]) :
    (set_server_fd 1 fd w).k = w.k ∧
      (set_server_fd 1 fd w).heap = [(1, Obj.server { s1 with fd := fd }), (2, b)] := by
  have hl : w.lookup 1 = some (Obj.server s1) := by simp [World.lookup, hh]
  simp [set_server_fd, hl, World.store, hh]

theorem set_server_epfd_eq (w : World) (s1 : net_server) (b : Obj) (fd : Int)
    (hh : w.heap = [(1, Obj.server s1), (2, b)]) :
    (set_server_epfd 1 fd w).k = w.k ∧
      (set_server_epfd 1 fd w).heap = [(1, Obj.server { s1 with epfd := fd }), (2, b)] := by
  have hl : w.lookup 1 = some (Obj.server s1) := by simp [World.lookup, hh]
  simp [set_server_epfd, hl, World.store, hh]

/-- What `net_server_start` returns in a fresh process: `NULL`, or the
server at address 1 in the state described by `startKernel` and
`startHeap`. -/
theorem start_outcome (cfg : Config) (port : Nat) (env : StartEnv) (other : List Int) :
    (∃ w, net_server_start cfg port env (freshWorld other) = .ok (0, w)) ∨
    (∃ w, net_server_start cfg port env (freshWorld other) = .ok (1, w) ∧
      w.k = startKernel other ∧ w.heap = startHeap cfg other) := by
  obtain ⟨hf1, hf2⟩ := lowestFd_spec other
  obtain ⟨hg1, hg2⟩ := lowestFd_spec (other ++ [lowestFd other])
  have hfm : lowestFd other ≠ -1 := by omega
  have hgm : lowestFd (other ++ [lowestFd other]) ≠ -1 := by omega
  have h10 : ¬ ((1 : Nat) = 0) := by decide
  have hm10 : ¬ ((-1 : Int) = 0) := by decide
  unfold net_server_start
  simp only
  rcases net_server_create_outcome cfg env ((freshWorld other).log Call.signal_ignore_sigpipe) (by rfl)
    with ⟨w1, hc, -⟩ | ⟨w1, hc, hk1, hh1⟩
  · left
    rw [hc]
    simp only [if_true, net_server_start_err_null]
    exact ⟨_, rfl⟩
  · rw [hc]
    simp only [h10, if_false]
    have hopen1 : w1.k.openFds = other := by
      rw [hk1]; simp [Kernel.openFds, freshWorld, World.log]
    cases h3 : env.socket_ok with
    | false =>
      left
      have e : sys_socket w1 false = (-1, w1.log (Call.socket (-1))) := by simp [sys_socket]
      rw [e]
      simp only [if_true]
      exact net_server_start_err_booting _ _ _ (set_server_fd_eq (w1.log (Call.socket (-1))) _ _ (-1) hh1).2 (by rfl)
    | true =>
      obtain ⟨w2, hso, hk2, hh2⟩ := sys_socket_ok w1
      rw [hopen1] at hso hk2
      rw [hso]
      simp only [hfm, if_false]
      obtain ⟨hk3, hh3⟩ := set_server_fd_eq w2 _ _ (lowestFd other) (hh2.trans hh1)
      have hsock : lowestFd other ∈ ((set_server_fd 1 (lowestFd other) w2).log
          (Call.setsockopt (lowestFd other))).k.socks := by
        show lowestFd other ∈ (set_server_fd 1 (lowestFd other) w2).k.socks
        rw [hk3, hk2]; simp
      obtain ⟨w4, hb, hk4, hh4⟩ := sys_bind_eq _ (lowestFd other) port env.bind_ok hsock
      rw [hb]
      cases h4 : env.bind_ok with
      | false =>
        left
        simp only [Bool.false_eq_true, if_false, ne_eq, hm10, not_false_eq_true, if_true]
        exact net_server_start_err_booting _ _ _ (hh4.trans hh3) (by rfl)
      | true =>
        simp only [if_true, ne_eq, not_true_eq_false, if_false]
        have hsock4 : lowestFd other ∈ w4.k.socks := by rw [hk4]; exact hsock
        obtain ⟨w5, hl, hk5, hh5⟩ := sys_listen_eq w4 (lowestFd other) NET_SERVER_BACKLOG
          env.listen_ok hsock4
        rw [hl]
        cases h5 : env.listen_ok with
        | false =>
          left
          simp only [Bool.false_eq_true, if_false, ne_eq, hm10, not_false_eq_true, if_true]
          exact net_server_start_err_booting _ _ _ (hh5.trans (hh4.trans hh3)) (by rfl)
        | true =>
          simp only [if_true, ne_eq, not_true_eq_false, if_false]
          have hk5w : w5.k = Kernel.mk other [lowestFd other] [] [] := by
            rw [hk5, hk4]
            show (set_server_fd 1 (lowestFd other) w2).k = _
            rw [hk3, hk2, hk1]
            simp [freshWorld, World.log]
          have hopen5 : w5.k.openFds = other ++ [lowestFd other] := by
            rw [hk5w]; simp [Kernel.openFds]
          have hh5w : w5.heap = [(1, Obj.server ⟨lowestFd other, env.junk_epfd, 2,
              cfg.NET_MAX_EVENTS⟩), (2, Obj.batch cfg.NET_MAX_EVENTS)] :=
            hh5.trans (hh4.trans hh3)
          cases h6 : env.epoll_ok with
          | false =>
            left
            have e : sys_epoll_create w5 false = (-1, w5.log (Call.epoll_create (-1))) := by
              simp [sys_epoll_create]
            rw [e]
            simp only [if_true]
            exact net_server_start_err_booting _ _ _ hh5w (by rfl)
          | true =>
            obtain ⟨w6, hep, hk6, hh6⟩ := sys_epoll_create_ok w5
            rw [hopen5] at hep hk6
            rw [hep]
            simp only [hgm, if_false]
            obtain ⟨hk7, hh7⟩ := set_server_epfd_eq w6 _ _
              (lowestFd (other ++ [lowestFd other])) (hh6.trans hh5w)
            cases h7 : env.fe_ok with
            | false =>
              left
              have e : ∀ w, net_file_event_create 1 net_file_event_type_server false w =
                  (0, w.log (Call.malloc 0)) := by
                intro w; simp [net_file_event_create, sys_malloc]
              rw [e]
              simp only [if_true]
              exact net_server_start_err_booting _ _ _ hh7 (by rfl)
            | true =>
              obtain ⟨w8, hfe, hk8, hh8⟩ := net_file_event_create_ok 1
                net_file_event_type_server
                (set_server_epfd 1 (lowestFd (other ++ [lowestFd other])) w6)
              rw [hh7, freshAddr_two] at hfe hh8
              rw [hfe]
              have h30 : ¬ ((3 : Nat) = 0) := by decide
              simp only [h30, if_false]
              have hk8w : w8.k = Kernel.mk other [lowestFd other]
                  [lowestFd (other ++ [lowestFd other])] [] := by
                rw [hk8, hk7, hk6, hk5w]
                rfl
              cases h8 : env.ctl_ok with
              | false =>
                left
                rw [sys_epoll_ctl_add_fail]
                simp only [if_true]
                exact net_server_start_err_registered _ _ _ _ hh8 (by rfl)
              | true =>
                right
                obtain ⟨w9, hadd, hk9, hh9⟩ := sys_epoll_ctl_add_ok w8
                  (lowestFd (other ++ [lowestFd other])) (lowestFd other) EPOLLIN 3
                  (by rw [hk8w]; simp) (by rw [hk8w]; simp [Kernel.openFds])
                  (by
                    intro h
                    apply hg1
                    rw [← h]
                    simp)
                  (by rw [hk8w]; simp)
                rw [hadd]
                have h0m : ¬ ((0 : Int) = -1) := by decide
                simp only [h0m, if_false]
                refine ⟨w9, rfl, ?_, ?_⟩
                · rw [hk9, hk8w]; rfl
                · rw [hh9, hh8]; rfl

theorem start_inv (cfg : Config) (other : List Int) :
    RegInv 1 (startServer cfg other) (startKernel other) (startHeap cfg other) := by
  obtain ⟨hf1, hf2⟩ := lowestFd_spec other
  obtain ⟨hg1, hg2⟩ := lowestFd_spec (other ++ [lowestFd other])
  simp only [List.mem_append, List.mem_singleton, not_or] at hg1
  refine
    { server := rfl, listener := ?_, instance_open := ?_, instance_nonneg := hg2,
      instance_no_socket := ?_, zero_open := ?_, socks_nonneg := ?_, socks_fresh := ?_,
      socks_nodup := ?_, same_instance := ?_, one_registration := ?_,
      sockets_registered := ?_, binding := ?_, keys_nodup := ?_, no_leak := rfl }
  · simp [startKernel, startServer]
  · simp [startKernel, startServer]
  · simp only [startKernel, startServer, List.mem_singleton]
    exact hg1.2
  · by_cases h : (0 : Int) ∈ other
    · exact Or.inl h
    · exact Or.inr (lowestFd_zero other h)
  · intro fd hfd
    simp only [startKernel, List.mem_singleton] at hfd
    rw [hfd]; exact hf2
  · intro fd hfd
    simp only [startKernel, List.mem_singleton] at hfd
    rw [hfd]; exact hf1
  · simp [startKernel]
  · intro r hr
    simp only [startKernel, List.mem_singleton] at hr
    rw [hr]; rfl
  · simp [startKernel]
  · intro fd
    simp [startKernel]
  · intro r hr
    simp only [startKernel, List.mem_singleton] at hr
    rw [hr]
    exact ⟨⟨1, net_file_event_type_server, 0⟩, rfl, Or.inl ⟨rfl, rfl, rfl⟩⟩
  · simp [startHeap]

theorem RegInv.count {sp : Nat} {s : net_server} {k : Kernel} {heap : List (Nat × Obj)}
    (inv : RegInv sp s k heap) : k.regs.length = k.socks.length := by
  have hperm : (k.regs.map Reg.fd).Perm k.socks :=
    (List.perm_ext_iff_of_nodup inv.one_registration inv.socks_nodup).mpr
      (fun a => (inv.sockets_registered a).symm)
  have := hperm.length_eq
  simpa using this

theorem reachable_inv (cfg : Config) (sp : Nat) (w : World) (h : Reachable cfg sp w) :
    ∃ s, RegInv sp s w.k w.heap := by
  induction h with
  | start other port env w hsp hst =>
    rcases start_outcome cfg port env other with ⟨w1, h1⟩ | ⟨w1, h1, hk, hh⟩
    · rw [h1] at hst
      simp only [Except.ok.injEq, Prod.mk.injEq] at hst
      exact absurd hst.1.symm hsp
    · rw [h1] at hst
      simp only [Except.ok.injEq, Prod.mk.injEq] at hst
      obtain ⟨h2, h3⟩ := hst
      subst h2; subst h3
      exact ⟨startServer cfg other, (start_inv cfg other).transfer hk hh⟩
  | poll w w1 wait n _ hw hp ih =>
    obtain ⟨s, inv⟩ := ih
    have := net_poll_sound cfg w inv wait hw
    rw [hp] at this
    exact ⟨s, this⟩

/-- C9: the registration invariant of the reactor. In every state reachable
from a successful `net_server_start` by `net_poll` cycles whose batch holds
at most one entry per registered descriptor, `RegInv` holds: every open
socket (the listener and each connection) has exactly one registration whose
payload is a live `net_file_event` bound to it, nothing else is registered,
and the heap holds exactly the objects of the server and of the open
connections. Hence the number of registrations equals the number of open
sockets, so that it is back to its baseline once the accepted connections are
closed. A further cycle frees no object twice and follows no dangling
pointer: it either returns, in a state where the invariant holds again, or
stops on the unchecked store of `net_client_read` or on a fatal wait. -/
theorem registration_invariant (cfg : Config) (sp : Nat) (w : World)
    (h : Reachable cfg sp w) :
    ∃ s, RegInv sp s w.k w.heap ∧ w.k.regs.length = w.k.socks.length ∧
      ∀ wait, WaitOk w wait →
        Sound (fun r => RegInv sp s r.2.k r.2.heap) (net_poll cfg sp wait w) := by
  obtain ⟨s, inv⟩ := reachable_inv cfg sp w h
  exact ⟨s, inv, inv.count, fun wait hw => net_poll_sound cfg w inv wait hw⟩

/-- Witness of C9: start, accept one connection, close it. -/
theorem registration_invariant_witness :
    ∃ s, RegInv 1 s demoClosed.k demoClosed.heap ∧
      demoClosed.k.regs.length = demoClosed.k.socks.length ∧
      ∀ wait, WaitOk demoClosed wait →
        Sound (fun r => RegInv 1 s r.2.k r.2.heap) (net_poll demoCfg 1 wait demoClosed) :=
  registration_invariant demoCfg 1 demoClosed
    (Reachable.poll demoAccepted demoClosed
      (WaitResult.ready [demoReady 5 1 Inbound.eof none]) 1
      (Reachable.poll demoStarted demoAccepted
        (WaitResult.ready [demoReady 3 1 Inbound.eof none]) 1
        (Reachable.start [0, 1, 2] 8080 demoEnv demoStarted (by decide) rfl)
        ⟨[⟨4, 3, 1, 3⟩], by decide, by decide, rfl⟩ rfl)
      ⟨[⟨4, 5, 5, 5⟩], by decide, by decide, rfl⟩ rfl)

/-! ## Failure paths of `net_server_accept` (C7) -/

/-- C7: the failure paths of `net_server_accept` do not always restore the
descriptor table. In a process whose descriptor 0 is closed, `accept` returns
0; when `fcntl` (or the allocation of the `net_client`) then fails, the test
`else if(fd)` at label `err:` skips `close`, so `NULL` is returned while
descriptor 0 stays open: a leak. With any other descriptor (second part: 5)
the same path closes it and the table is as before. -/
theorem accept_failure_leaks_descriptor_zero :
    demoIdleNoStdin.k.openFds = [1, 2, 3, 4] ∧
    (net_server_accept demoCfg 1 { demoAcc with fcntl_ok := false } demoIdleNoStdin).toOption.map
        (fun r => (r.1, r.2.k.openFds, r.2.trace)) =
      some (0, [1, 2, 3, 0, 4], [Call.accept 3 0, Call.fcntl 0 (-1)]) ∧
    (net_server_accept demoCfg 1 { demoAcc with client_ok := false } demoIdleNoStdin).toOption.map
        (fun r => (r.1, r.2.k.openFds, r.2.trace)) =
      some (0, [1, 2, 3, 0, 4], [Call.accept 3 0, Call.fcntl 0 0, Call.malloc 0]) ∧
    (net_server_accept demoCfg 1 { demoAcc with fcntl_ok := false } demoIdle).toOption.map
        (fun r => (r.1, r.2.k.openFds, r.2.trace)) =
      some (0, [0, 1, 2, 3, 4], [Call.accept 3 5, Call.fcntl 5 (-1), Call.close 5]) := by
  decide

/-! ## Failure paths of `net_server_start` (C8) -/

/-- C8: the failure paths of `net_server_start` do not release exactly what
the call acquired. `net_server_destroy` closes `s->fd` and `s->epfd` whenever
they are non-zero. First part: `bind` fails while the fresh `net_server`
block holds 1 in its never-assigned `epfd` field; `close(1)` is applied to a
descriptor this call did not open, and the process loses descriptor 1.
Second part: in a process whose descriptor 0 is closed `socket` returns 0;
when `listen` fails the listening socket is not closed. Third part: when
`socket` fails, `close(-1)` is called. In all three `NULL` is returned and the
two heap blocks are freed once. -/
theorem start_failure_closes_wrong_descriptors :
    (net_server_start demoCfg 8080 { demoEnv with junk_epfd := 1, bind_ok := false }
        demoFresh).toOption.map (fun r => (r.1, r.2.k.openFds, r.2.trace)) =
      some (0, [0, 2], [Call.signal_ignore_sigpipe, Call.malloc 1, Call.malloc 2,
        Call.socket 3, Call.setsockopt 3, Call.bind 3 8080 (-1), Call.free 2, Call.close 3,
        Call.close 1, Call.free 1]) ∧
    (net_server_start demoCfg 8080 { demoEnv with listen_ok := false }
        (freshWorld [1, 2])).toOption.map (fun r => (r.1, r.2.k.openFds, r.2.trace)) =
      some (0, [1, 2, 0], [Call.signal_ignore_sigpipe, Call.malloc 1, Call.malloc 2,
        Call.socket 0, Call.setsockopt 0, Call.bind 0 8080 0, Call.listen 0 50 (-1),
        Call.free 2, Call.free 1]) ∧
    (net_server_start demoCfg 8080 { demoEnv with socket_ok := false }
        demoFresh).toOption.map (fun r => (r.1, r.2.k.openFds, r.2.trace)) =
      some (0, [0, 1, 2], [Call.signal_ignore_sigpipe, Call.malloc 1, Call.malloc 2,
        Call.socket (-1), Call.free 2, Call.close (-1), Call.free 1]) := by
  decide

/-! ## Pending length of a new connection (C10) -/

/-- C10: `net_client_create` assigns `fd`, `ip` and `port` only, so the
pending length of the connection returned by `net_server_accept` is whatever
the fresh block held. With a block that holds 4 in `buflen` (and 5 in the
first slot of `buf`), the connection is returned with 4 pending bytes, and a
write-readiness entry serviced before any request was read writes these 4
bytes to the peer. -/
theorem new_connection_pending_not_cleared :
    (net_server_accept demoCfg 1 { demoAcc with junk_buf := [5], junk_buflen := 4 }
        demoIdle).toOption.map (fun r => (r.1, r.2.lookup r.1)) =
      some (4, some (Obj.client ⟨5, 1, 2, [5, 0], 4⟩)) ∧
    ((net_server_accept demoCfg 1 { demoAcc with junk_buf := [5], junk_buflen := 4 }
        demoIdle).toOption.bind (fun r => (net_poll_event demoCfg demoSrv
          (demoReady 5 4 Inbound.eof (some 4)) r.2).toOption)).map World.trace =
      some [Call.accept 3 5, Call.fcntl 5 0, Call.malloc 4, Call.malloc 5,
        Call.epoll_ctl_add 4 5 5 5 0, Call.write 5 4 4] := by
  decide

end CitySlicker
